import Mathlib

/-!
Shallow embedding of the remodal modal-dialog lifecycle controller
(src/index.js and the helper module src/unnamed/part_000).

The stateful DOM-facing code is embedded as explicit state passing over a
`World` record holding one dialog instance's observable state: its lifecycle
state, its four surfaces (bg, overlay, wrapper, modal), the namespaced
animation listeners of the barrier, the emitted notifications, the navigation
fragment, the page scroll offset, the module-level `scrollTop` variable, and
the screen-lock state of the html/body elements.  Animation events are
delivered as explicit `Signal` values; the computed-style probes
(`getAnimationDuration` results, the scrollbar width) enter as parameters,
matching the spec's suggestion to treat the duration probe as an injected
capability.  The cross-instance singleton coordination (the `current` pointer
and `halt` of the previously tracked instance) is modeled separately in
`World2`, a two-instance transition system.
-/

namespace Remodal

/-- Lifecycle states of a modal (source: `STATES`, src/index.js lines 89-94). -/
inductive RState
  | closing
  | closed
  | opening
  | opened
deriving DecidableEq, Fintype

/-- Reasons of a state change (source: `STATE_CHANGE_REASONS`, lines 102-105). -/
inductive Reason
  | confirmation
  | cancellation
deriving DecidableEq

/-- One visual surface (bg, overlay, wrapper or modal): which `remodal-is-*`
state class it carries (setState keeps exactly one), whether the settings
modifier class is on it, and its display (visible = `display: block`). -/
structure Surface where
  stateClass : RState
  hasModifier : Bool
  visible : Bool
deriving DecidableEq

/-- Which after-action closure a barrier run holds: the one passed by `open`
(set state to opened) or the one passed by `close` (strip modifier, hide,
unlock, set state to closed with the captured reason). -/
inductive TransKind
  | toOpened
  | toClosed (r : Option Reason)
deriving DecidableEq

/-- Kind of an animation event: animationstart or animationend. -/
inductive SignalKind
  | startK
  | endK
deriving DecidableEq

/-- One invocation of a barrier handler: the event kind, and whether
`e.target === this` held (the signal originated from the subscribed surface
itself; `false` models a signal bubbled up from a descendant). -/
structure Signal where
  kind : SignalKind
  targetIsSurface : Bool
deriving DecidableEq

/-- The four `getAnimationDuration` probe results used by the barrier's
zero-duration check (src/index.js lines 377-382).  `none` models a non-finite
result (the `NEGATIVE_INFINITY` fallthrough), which compares unequal to 0. -/
structure Durs where
  bg : Option ℚ
  overlay : Option ℚ
  wrapper : Option ℚ
  modal : Option ℚ
deriving DecidableEq

/-- All four probed durations are exactly 0: the condition of the barrier's
synchronous short-circuit (`getAnimationDuration(...) === 0 && ...`). -/
def allZero (d : Durs) : Prop :=
  d.bg = some 0 ∧ d.overlay = some 0 ∧ d.wrapper = some 0 ∧ d.modal = some 0

instance (d : Durs) : Decidable (allZero d) := by
  unfold allZero; infer_instance

/-- Direction argument of `screenLockToggle`. -/
inductive LockAction
  | lock
  | unlock
deriving DecidableEq

/-- Observable state of one dialog instance together with the page-global
state it touches.  `afterCount` instruments how many times a barrier
after-action has run (each `doAfterAnimation()` call increments it);
`savedScrollTop` is the module-level `scrollTop` variable (line 141);
`sbw` is the result of the `getScrollbarWidth()` DOM probe;
`modifierNonempty` records whether `settings.modifier` is a nonempty class
string (addClasses/removeClasses with `''` are no-ops). -/
structure World where
  state : RState
  bg : Surface
  overlay : Surface
  wrapper : Surface
  modal : Surface
  listeners : Bool
  counter : Int
  pending : Option TransKind
  afterCount : Nat
  events : List (RState × Option Reason)
  hashTracking : Bool
  modalId : Option String
  hash : String
  pageScroll : Int
  savedScrollTop : Option Int
  isIOS : Bool
  htmlLocked : Bool
  bodyPadding : Int
  sbw : Int
  modifierNonempty : Bool
  focusCount : Nat
  wrapperScrollTop : Int
deriving DecidableEq

/-- Model of `addClasses(el, settings.modifier)`: adds the modifier class iff
the modifier string is nonempty (src/unnamed/part_000 `addClasses` skips
empty tokens). -/
def addModifierCls (ms : Bool) (s : Surface) : Surface :=
  if ms then { s with hasModifier := true } else s

/-- Model of `removeClasses(el, settings.modifier)`: removes the modifier
class iff the modifier string is nonempty. -/
def removeModifierCls (ms : Bool) (s : Surface) : Surface :=
  if ms then { s with hasModifier := false } else s

/-- Model of `setState(instance, state, isSilent, reason)` (src/index.js
lines 307-332): every surface loses all state classes and gains exactly the
new one, the state is recorded, and unless silent a state-named notification
carrying the reason is emitted on the modal surface. -/
def setState (s : RState) (isSilent : Bool) (reason : Option Reason) (w : World) : World :=
  let w := { w with
    bg := { w.bg with stateClass := s },
    overlay := { w.overlay with stateClass := s },
    wrapper := { w.wrapper with stateClass := s },
    modal := { w.modal with stateClass := s },
    state := s }
  if isSilent then w else { w with events := w.events ++ [(s, reason)] }

/-- Model of `screenLockToggle(action)` (src/index.js lines 268-296): skipped
on iOS; otherwise the whole body is gated on `hasClass(html, lockedClass)`,
inside which the body padding is compensated by the scrollbar width
(subtracted for lock, added for unlock) and the locked class is added
(lock) or removed (unlock). -/
def screenLockToggle (action : LockAction) (w : World) : World :=
  if w.isIOS then w
  else if w.htmlLocked then
    let pr := if action = .lock then w.bodyPadding - w.sbw else w.bodyPadding + w.sbw
    { w with
      bodyPadding := pr,
      htmlLocked := action = .lock }
  else w

/-- The after-action closure bodies passed to `syncWithAnimation` by
`Remodal.open` (line 593) and `Remodal.close` (lines 623-632), plus the
`afterCount` instrumentation counting `doAfterAnimation()` calls. -/
def applyAfter (k : TransKind) (w : World) : World :=
  let w := { w with afterCount := w.afterCount + 1 }
  match k with
  | .toOpened => setState .opened false none w
  | .toClosed r =>
    let w := { w with
      bg := removeModifierCls w.modifierNonempty w.bg,
      overlay := removeModifierCls w.modifierNonempty w.overlay }
    let w := { w with
      overlay := { w.overlay with visible := false },
      wrapper := { w.wrapper with visible := false } }
    let w := screenLockToggle .unlock w
    setState .closed false r w

/-- The before-action closure bodies passed to `syncWithAnimation` by
`Remodal.open` (line 592) and `Remodal.close` (lines 620-622). -/
def beforeAction (k : TransKind) (w : World) : World :=
  match k with
  | .toOpened => setState .opening false none w
  | .toClosed r => setState .closing false r w

/-- Model of `syncWithAnimation(doBeforeAnimation, doAfterAnimation, instance)`
(src/index.js lines 340-390), synchronous part: reset the running-animations
counter, attach the start/end handlers to all four surfaces (with the pending
after-action they capture), run the before-action, then probe the four
durations; if all four are exactly 0, remove the listeners and run the
after-action immediately.  The asynchronous handler part is `deliverSignal`. -/
def syncWithAnimation (k : TransKind) (probe : Durs) (w : World) : World :=
  let w1 := { w with counter := 0, listeners := true, pending := some k }
  let w2 := beforeAction k w1
  if allZero probe then
    applyAfter k { w2 with listeners := false, pending := none }
  else w2

/-- Model of one animation event reaching the barrier's handlers
(`handleAnimationStart` lines 343-349 and `handleAnimationEnd` lines
351-367).  Once the namespaced listeners are removed nothing runs; a signal
whose origin is not the subscribed surface is ignored; a qualifying start
increments the counter; a qualifying end decrements it, and exactly when the
decrement reaches 0 the listeners are removed from all four surfaces and the
pending after-action runs. -/
def deliverSignal (s : Signal) (w : World) : World :=
  if w.listeners = false then w
  else if s.targetIsSurface = false then w
  else
    match s.kind with
    | .startK => { w with counter := w.counter + 1 }
    | .endK =>
      let c := w.counter - 1
      if c = 0 then
        match w.pending with
        | some k => applyAfter k { w with counter := c, listeners := false, pending := none }
        | none => { w with counter := c, listeners := false }
      else { w with counter := c }

/-- Folds a sequence of animation events through the barrier handlers. -/
def deliverAll (sigs : List Signal) (w : World) : World :=
  sigs.foldl (fun w s => deliverSignal s w) w

/-- The fragment/scroll recording step of `Remodal.prototype.open`
(src/index.js lines 564-573): when the dialog has a non-null nonempty
`data-remodal-id` and hash tracking is on, the current page scroll offset is
saved into the module-level `scrollTop` variable and the fragment is set to
the id. -/
def recordHashOnOpen (w : World) : World :=
  match w.modalId with
  | some id =>
    if id ≠ "" ∧ w.hashTracking = true then
      { w with savedScrollTop := some w.pageScroll, hash := id }
    else w
  | none => w

/-- The presentation steps of `Remodal.prototype.open` (src/index.js lines
582-589): add the modifier class to bg and overlay, display overlay and
wrapper, scroll the wrapper to the top and focus the modal. -/
def showSurfaces (w : World) : World :=
  let w := { w with
    bg := addModifierCls w.modifierNonempty w.bg,
    overlay := addModifierCls w.modifierNonempty w.overlay }
  let w := { w with
    overlay := { w.overlay with visible := true },
    wrapper := { w.wrapper with visible := true } }
  { w with wrapperScrollTop := 0, focusCount := w.focusCount + 1 }

/-- Model of `Remodal.prototype.open` (src/index.js lines 558-596) for a
single instance: no-op while Opening or Closing; otherwise record the
fragment and scroll offset, lock the screen, show the surfaces, and run the
barrier with opening/opened as before/after actions.  The `halt(current)` of
a different previously tracked instance is modeled in the two-instance
system `World2` below (`step2`/`openPre`). -/
def openM (probe : Durs) (w : World) : World :=
  if w.state = .opening ∨ w.state = .closing then w
  else
    syncWithAnimation .toOpened probe
      (showSurfaces (screenLockToggle .lock (recordHashOnOpen w)))

/-- The fragment-clearing step of `Remodal.prototype.close` (src/index.js
lines 614-617): when hash tracking is on and the dialog's id equals the
current fragment, clear the fragment and call `window.scrollTo(0, 0)`, which
sets the page scroll offset to 0 (the recorded `scrollTop` module variable
is not read). -/
def clearHashOnClose (w : World) : World :=
  if w.hashTracking = true ∧ w.modalId = some w.hash then
    { w with hash := "", pageScroll := 0 }
  else w

/-- Model of `Remodal.prototype.close` (src/index.js lines 604-635): no-op
while Opening, Closing or Closed; otherwise clear the fragment when it
matches, then run the barrier with closing/closed as before/after actions. -/
def closeM (probe : Durs) (r : Option Reason) (w : World) : World :=
  if w.state = .opening ∨ w.state = .closing ∨ w.state = .closed then w
  else syncWithAnimation (.toClosed r) probe (clearHashOnClose w)

/-- Model of `halt(instance)` (src/index.js lines 397-414): nothing when
already Closed; otherwise remove the namespaced animation listeners from all
four surfaces, strip the modifier class from bg and overlay, hide overlay and
wrapper, unlock the screen, and set the state to Closed silently. -/
def haltM (w : World) : World :=
  if w.state = .closed then w
  else
    let w := { w with listeners := false }
    let w := { w with
      bg := removeModifierCls w.modifierNonempty w.bg,
      overlay := removeModifierCls w.modifierNonempty w.overlay }
    let w := { w with
      overlay := { w.overlay with visible := false },
      wrapper := { w.wrapper with visible := false } }
    let w := screenLockToggle .unlock w
    setState .closed true none w

/-- Loop body of `getAnimationDuration` (src/index.js lines 183-189),
translated as recursion over the comma-split duration entries with the
parallel delay and iteration-count entries advanced alongside (the JS loop
runs `i` over `duration.length` and indexes `delay[i]` / `iterationCount[i]`;
a missing or unparsable entry is `none`, the `parseFloat`/`parseInt` NaN, and
then `num > max` is false so the entry is skipped).  `mx = none` is the
`NEGATIVE_INFINITY` initial maximum. -/
def animNum (d cv dlv : Option ℚ) : Option ℚ :=
  match d, cv, dlv with
  | some dv, some c, some dl => some (dv * c + dl)
  | _, _, _ => none

def animStep (num mx : Option ℚ) : Option ℚ :=
  match num, mx with
  | some n, none => some n
  | some n, some m => if n > m then some n else some m
  | none, _ => mx

def animLoop : List (Option ℚ) → List (Option ℚ) → List (Option Int) → Option ℚ → Option ℚ
  | [], _, _, mx => mx
  | d :: ds, dls, cs, mx =>
    animLoop ds dls.tail cs.tail
      (animStep (animNum d (((cs.head?).join).map (fun c => (c : ℚ))) ((dls.head?).join)) mx)

/-- Model of `getAnimationDuration(elem)` (src/index.js lines 164-192) over
the parsed computed-style values of the element: `isAnim` is the
`IS_ANIMATION` feature flag, `nameNone` whether the (vendor-prefix resolved)
`animation-name` is the string `none`, and the three lists are the parsed
comma-split `animation-duration`, `animation-delay` and
`animation-iteration-count` entries (`none` = NaN).  Returns `none` when no
entry yielded a finite value (the `NEGATIVE_INFINITY` result). -/
def getAnimationDuration (isAnim nameNone : Bool)
    (dur delay : List (Option ℚ)) (iter : List (Option Int)) : Option ℚ :=
  if isAnim = true ∧ nameNone = true then some 0
  else animLoop dur delay iter none

/-- Spec-side formula for the duration of one animation entry: duration times
iteration-count plus delay (spec section 4.1 step 6). -/
def specEntryDuration (d dl : ℚ) (c : Int) : ℚ :=
  d * (c : ℚ) + dl

/-- Spec-side list of per-entry durations for comma-separated multi-animation
values, as described by the spec (duration times iteration-count plus delay,
entrywise). -/
def specDurations (d dl : List ℚ) (c : List Int) : List ℚ :=
  List.zipWith (fun dv p => specEntryDuration dv p.2 p.1) d (c.zip dl)

/-- Running-maximum step for the spec-side duration maximum. -/
def specMaxStep (a : Option ℚ) (b : ℚ) : Option ℚ :=
  match a with
  | none => some b
  | some x => some (max x b)

/-- Spec-side maximum across the per-entry durations (`none` for an empty
list). -/
def specMaxDuration (l : List ℚ) : Option ℚ :=
  l.foldl specMaxStep none

/-! ### The option-string parser and object merging
(src/unnamed/part_000 `parseOptions`, and `Object.assign` as used by the
`Remodal` constructor).  Strings are worked with as `List Char`. -/

/-- Characters matched by the regex class whitespace in the delimiters of
`parseOptions` (the common JavaScript whitespace characters). -/
def isJsWs (c : Char) : Bool :=
  c = ' ' ∨ c = '\t' ∨ c = '\n' ∨ c = '\r' ∨ c = '\x0b' ∨ c = '\x0c'

/-- Helper for the delimiter-whitespace removal: copies the list, skipping
whitespace runs that immediately follow an occurrence of `c` (the flag says
whether the previous kept character was `c` or skipped whitespace after it). -/
def dropWsAfterGo (c : Char) : Bool → List Char → List Char
  | _, [] => []
  | afterC, x :: xs =>
    if afterC = true ∧ isJsWs x = true then dropWsAfterGo c true xs
    else if x = c then x :: dropWsAfterGo c true xs
    else x :: dropWsAfterGo c false xs

/-- Removes whitespace immediately after each occurrence of `c`. -/
def dropWsAfter (c : Char) (l : List Char) : List Char :=
  dropWsAfterGo c false l

/-- Model of `str.replace(/\s*c\s*/g, c)` for a single delimiter character
`c` (src/unnamed/part_000 line 17): every whitespace run adjacent to an
occurrence of `c` is removed.  Whitespace before `c` is whitespace after `c`
in the reversed list. -/
def stripAroundChar (c : Char) (l : List Char) : List Char :=
  dropWsAfter c ((dropWsAfter c l.reverse).reverse)

/-- Model of JavaScript `String.prototype.split` with a single-character
separator: `"".split(c)` is `[""]`, and separators at the ends produce empty
fields. -/
def splitOnChar (c : Char) : List Char → List (List Char)
  | [] => [[]]
  | x :: xs =>
    let r := splitOnChar c xs
    if x = c then [] :: r
    else
      match r with
      | [] => [[x]]
      | h :: t => (x :: h) :: t

/-- A JavaScript number as produced by `ToNumber` on a string: a finite
rational or a signed infinity (NaN is represented by `Option.none` at the
`jsToNumber` level). -/
inductive JsNum
  | val (q : ℚ)
  | posInf
  | negInf
deriving DecidableEq

/-- A JavaScript value as stored by `parseOptions` into the result object. -/
inductive JsVal
  | jb (b : Bool)
  | jn (n : JsNum)
  | js (s : List Char)
  | jnull
  | jundef
deriving DecidableEq

/-- Numeric value of a decimal digit character. -/
def digitVal (c : Char) : Nat := c.toNat - 48

/-- Decimal digits to a natural number. -/
def digitsToNat (l : List Char) : Nat :=
  l.foldl (fun a c => a * 10 + digitVal c) 0

/-- Hexadecimal digit test. -/
def isHexDigit (c : Char) : Bool :=
  c.isDigit ∨ (decide (97 ≤ c.toNat) ∧ decide (c.toNat ≤ 102))
    ∨ (decide (65 ≤ c.toNat) ∧ decide (c.toNat ≤ 70))

/-- Hexadecimal digit value. -/
def hexVal (c : Char) : Nat :=
  if c.isDigit then digitVal c
  else if decide (97 ≤ c.toNat) then c.toNat - 87
  else c.toNat - 55

/-- Hexadecimal digits to a natural number. -/
def hexToNat (l : List Char) : Nat :=
  l.foldl (fun a c => a * 16 + hexVal c) 0

/-- Octal digit test. -/
def isOctDigit (c : Char) : Bool :=
  decide (48 ≤ c.toNat) ∧ decide (c.toNat ≤ 55)

/-- Octal digits to a natural number. -/
def octToNat (l : List Char) : Nat :=
  l.foldl (fun a c => a * 8 + digitVal c) 0

/-- Binary digit test. -/
def isBinDigit (c : Char) : Bool :=
  c = '0' ∨ c = '1'

/-- Binary digits to a natural number. -/
def binToNat (l : List Char) : Nat :=
  l.foldl (fun a c => a * 2 + digitVal c) 0

/-- Parses the optional exponent tail of a decimal numeric literal; `none` is
a malformed tail (NaN). -/
def parseExp : List Char → Option Int
  | [] => some 0
  | e :: rest =>
    if e = 'e' ∨ e = 'E' then
      match rest with
      | '+' :: ds =>
        if ds ≠ [] ∧ ds.all Char.isDigit then some ((digitsToNat ds : Int)) else none
      | '-' :: ds =>
        if ds ≠ [] ∧ ds.all Char.isDigit then some (-(digitsToNat ds : Int)) else none
      | ds =>
        if ds ≠ [] ∧ ds.all Char.isDigit then some ((digitsToNat ds : Int)) else none
    else none

/-- Value of a decimal literal from its integer digits, fraction digits and
exponent: the mantissa digits over the fraction scale, shifted by the
exponent. -/
def decValue (ip fp : List Char) (e : Int) : ℚ :=
  let m : Nat := digitsToNat ip * 10 ^ fp.length + digitsToNat fp
  if 0 ≤ e then mkRat ((m * 10 ^ e.toNat : Nat) : Int) (10 ^ fp.length)
  else mkRat (m : Int) (10 ^ fp.length * 10 ^ (-e).toNat)

/-- Parses an unsigned decimal numeric literal (digits, optional fraction,
optional exponent); `none` is NaN. -/
def parseUnsignedDecimal (l : List Char) : Option ℚ :=
  let ip := l.takeWhile Char.isDigit
  let r1 := l.dropWhile Char.isDigit
  match r1 with
  | '.' :: rest =>
    let fp := rest.takeWhile Char.isDigit
    let r2 := rest.dropWhile Char.isDigit
    if ip = [] ∧ fp = [] then none
    else
      match parseExp r2 with
      | none => none
      | some e => some (decValue ip fp e)
  | _ =>
    if ip = [] then none
    else
      match parseExp r1 with
      | none => none
      | some e => some (decValue ip [] e)

/-- Parses a radix-prefixed integer literal (`0x`, `0o`, `0b`); `none` when
the shape does not match. -/
def radixParse : List Char → Option ℚ
  | '0' :: x :: ds =>
    if (x = 'x' ∨ x = 'X') ∧ ds ≠ [] ∧ ds.all isHexDigit then some ((hexToNat ds : ℚ))
    else if (x = 'o' ∨ x = 'O') ∧ ds ≠ [] ∧ ds.all isOctDigit then some ((octToNat ds : ℚ))
    else if (x = 'b' ∨ x = 'B') ∧ ds ≠ [] ∧ ds.all isBinDigit then some ((binToNat ds : ℚ))
    else none
  | _ => none

/-- Decimal literal with an optional sign. -/
def signedDecimal (t : List Char) : Option ℚ :=
  match t with
  | '+' :: r => parseUnsignedDecimal r
  | '-' :: r => (parseUnsignedDecimal r).map (fun q => -q)
  | _ => parseUnsignedDecimal t

/-- Model of JavaScript `ToNumber` on a string (the semantics of `isNaN(val)`
and `+val` in `parseOptions`): trim whitespace, empty is 0, signed
`Infinity`, radix-prefixed integers, otherwise a signed decimal literal;
`none` is NaN. -/
def jsToNumber (l : List Char) : Option JsNum :=
  let t := ((l.dropWhile isJsWs).reverse.dropWhile isJsWs).reverse
  if t = [] then some (.val 0)
  else if t = ("Infinity".data) ∨ t = ("+Infinity".data) then some .posInf
  else if t = ("-Infinity".data) then some .negInf
  else
    match radixParse t with
    | some q => some (.val q)
    | none => (signedDecimal t).map .val

/-- Value coercion of `parseOptions` (src/unnamed/part_000 lines 25-33): the
missing part of a token without a colon stays `undefined`; the string `true`
or `false` becomes the boolean; otherwise, if the string is not NaN under
`ToNumber` (`!isNaN(val)`), it becomes the number `+val`; otherwise it stays
the original string. -/
def coerceValue : Option (List Char) → JsVal
  | none => .jundef
  | some v =>
    if v = ("true".data) then .jb true
    else if v = ("false".data) then .jb false
    else
      match jsToNumber v with
      | some n => .jn n
      | none => .js v

/-- An object as an insertion-ordered association list; `objInsert` models
`obj[key] = val` (update in place, or append a new key). -/
def objInsert : List (List Char × JsVal) → List Char → JsVal → List (List Char × JsVal)
  | [], k, v => [(k, v)]
  | (k0, v0) :: t, k, v =>
    if k0 = k then (k0, v) :: t else (k0, v0) :: objInsert t k v

/-- First-match association lookup (JavaScript property read; keys are unique
inside an object built by `objInsert`). -/
def lookupObj (k : List Char) : List (List Char × JsVal) → Option JsVal
  | [] => none
  | (k0, v0) :: t => if k0 = k then some v0 else lookupObj k t

/-- The per-token step of `parseOptions`: split the token on `:`; the key is
the part before the first `:` (`arr[i][0]`), the value is the coercion of
the part between the first and second `:` (`arr[i][1]`, `undefined` when
there is no colon). -/
def tokenKV (tok : List Char) : List Char × JsVal :=
  let parts := splitOnChar ':' tok
  (parts.headD [], coerceValue parts[1]?)

/-- Model of `parseOptions(str)` (src/unnamed/part_000 lines 9-39): remove
whitespace around `:` and then around `,`, split on `,`, split each token on
`:`, coerce the part after the first `:` and assign it to the part before. -/
def parseOptions (s : List Char) : List (List Char × JsVal) :=
  let s1 := stripAroundChar ':' s
  let s2 := stripAroundChar ',' s1
  (splitOnChar ',' s2).foldl
    (fun obj tok => objInsert obj (tokenKV tok).1 (tokenKV tok).2) []

/-- Renders a list of key/value string pairs as a `parseOptions` input
string: tokens of the form `key:value` joined by commas. -/
def renderOptions : List (List Char × List Char) → List Char
  | [] => []
  | p :: rest =>
    p.1 ++ ':' :: p.2 ++
      (match rest with
       | [] => []
       | _ :: _ => ',' :: renderOptions rest)

/-- Model of `Object.assign(target, source)`: copies the source properties
into the target, left to right, and returns the (mutated) target. -/
def objectAssign (target src : List (List Char × JsVal)) : List (List Char × JsVal) :=
  src.foldl (fun o p => objInsert o p.1 p.2) target

/-- The module-level `DEFAULTS` object (src/index.js lines 73-81), without a
`window.REMODAL_GLOBALS` override. -/
def defaultsInit : List (List Char × JsVal) :=
  [("hashTracking".data, .jb true),
   ("closeOnConfirm".data, .jb true),
   ("closeOnCancel".data, .jb true),
   ("closeOnEscape".data, .jb true),
   ("closeOnOutsideClick".data, .jb true),
   ("modifier".data, .js []),
   ("appendTo".data, .jnull)]

/-- The settings-merging step of the `Remodal` constructor (src/index.js line
461): `this.settings = Object.assign(DEFAULTS, options)` both produces the
instance settings and mutates the shared module-level `DEFAULTS` (the two
results are the same object). -/
def constructSettings (defaults options : List (List Char × JsVal)) :
    List (List Char × JsVal) × List (List Char × JsVal) :=
  let m := objectAssign defaults options
  (m, m)

/-! ### Two-instance system for the singleton coordinator
Minimal model of two `Remodal` instances (A and B), the module-level
`current` pointer, and the lifecycle actions that change their states:
`open`, `close`, barrier completion (`finish`, covering both the
animation-end path and the synchronous zero-duration path), and `halt`. -/

/-- Name of one of the two modeled instances. -/
inductive WhoI
  | wa
  | wb
deriving DecidableEq, Fintype

/-- Two-instance world: the lifecycle states of instances A and B and the
module-level `current` pointer (src/index.js line 134). -/
structure World2 where
  stA : RState
  stB : RState
  cur : Option WhoI
deriving DecidableEq

instance : Fintype World2 :=
  Fintype.ofEquiv (RState × RState × Option WhoI)
    { toFun := fun p => ⟨p.1, p.2.1, p.2.2⟩
      invFun := fun w => ⟨w.stA, w.stB, w.cur⟩
      left_inv := fun _ => rfl
      right_inv := fun _ => rfl }

/-- State of the named instance. -/
def stOf (w : World2) : WhoI → RState
  | .wa => w.stA
  | .wb => w.stB

/-- Replace the state of the named instance. -/
def setSt (who : WhoI) (s : RState) (w : World2) : World2 :=
  match who with
  | .wa => { w with stA := s }
  | .wb => { w with stB := s }

/-- State projection of `halt(instance)` in the two-instance model: nothing
when already Closed, otherwise an immediate silent transition to Closed. -/
def halt2 (who : WhoI) (w : World2) : World2 :=
  if stOf w who = .closed then w else setSt who .closed w

/-- The part of `Remodal.prototype.open` (src/index.js lines 575-579) that
runs before the instance leaves Closed: `if (current && current !== this)
halt(current)` and then `current = this`. -/
def openPre (who : WhoI) (w : World2) : World2 :=
  let w1 :=
    match w.cur with
    | some y => if y ≠ who then halt2 y w else w
    | none => w
  { w1 with cur := some who }

/-- Lifecycle actions on the two-instance world. -/
inductive Act2
  | openA
  | openB
  | closeA
  | closeB
  | finishA
  | finishB
  | haltA
  | haltB
deriving DecidableEq, Fintype

/-- One action of the two-instance system.  `open` is guarded as in the
source (no-op while Opening or Closing), halts the other tracked instance,
takes the `current` pointer, and enters Opening; `close` is guarded to act
only from Opened and enters Closing; `finish` is the pending barrier
completing (Opening to Opened, Closing to Closed), covering also the
synchronous zero-duration completion when taken immediately after the
transition began; `halt` is the forced silent close. -/
def step2 (a : Act2) (w : World2) : World2 :=
  match a with
  | .openA =>
    if w.stA = .opening ∨ w.stA = .closing then w
    else setSt .wa .opening (openPre .wa w)
  | .openB =>
    if w.stB = .opening ∨ w.stB = .closing then w
    else setSt .wb .opening (openPre .wb w)
  | .closeA => if w.stA = .opened then setSt .wa .closing w else w
  | .closeB => if w.stB = .opened then setSt .wb .closing w else w
  | .finishA =>
    if w.stA = .opening then setSt .wa .opened w
    else if w.stA = .closing then setSt .wa .closed w
    else w
  | .finishB =>
    if w.stB = .opening then setSt .wb .opened w
    else if w.stB = .closing then setSt .wb .closed w
    else w
  | .haltA => halt2 .wa w
  | .haltB => halt2 .wb w

/-- Initial two-instance world: both instances Closed, no tracked current. -/
def init2 : World2 := ⟨.closed, .closed, none⟩

/-- Run of the two-instance system from the initial world. -/
def run2 (acts : List Act2) : World2 :=
  acts.foldl (fun w a => step2 a w) init2

/-- An instance is active when it is Opening or Opened. -/
def activeSt (s : RState) : Prop :=
  s = .opening ∨ s = .opened

instance (s : RState) : Decidable (activeSt s) := by
  unfold activeSt; infer_instance

/-- Coordinator invariant: an active instance is the tracked current one. -/
def Inv2 (w : World2) : Prop :=
  (activeSt w.stA → w.cur = some .wa) ∧ (activeSt w.stB → w.cur = some .wb)

instance (w : World2) : Decidable (Inv2 w) := by
  unfold Inv2; infer_instance

/-! ### Auxiliary definitions for the statements -/

/-- The notification appended by the after-action of a barrier run. -/
def afterEvent : TransKind → RState × Option Reason
  | .toOpened => (.opened, none)
  | .toClosed r => (.closed, r)

/-- The notification appended by the before-action of a barrier run. -/
def beforeEvent : TransKind → RState × Option Reason
  | .toOpened => (.opening, none)
  | .toClosed r => (.closing, r)

/-- Number of notifications for a given state in an event log. -/
def countSt (s : RState) (evs : List (RState × Option Reason)) : Nat :=
  (evs.filter (fun e => decide (e.1 = s))).length

/-- Number of qualifying (origin equals subscribed surface) start signals. -/
def qualStartCount (sigs : List Signal) : Nat :=
  (sigs.filter (fun s => s.targetIsSurface && (decide (s.kind = .startK)))).length

/-- A qualifying end signal: the only signal kind on which the barrier can
complete. -/
def isQualEnd (s : Signal) : Prop :=
  s.targetIsSurface = true ∧ s.kind = .endK

instance (s : Signal) : Decidable (isQualEnd s) := by
  unfold isQualEnd; infer_instance

/-- A surface carrying only the closed state class. -/
def closedSurface : Surface := ⟨.closed, false, false⟩

/-- Concrete closed instance used as witness input: hash tracking on, dialog
id `foo`, empty fragment, page scrolled to 100, not iOS, unlocked, nonempty
modifier. -/
def sampleClosed : World := {
  state := .closed, bg := closedSurface, overlay := closedSurface,
  wrapper := closedSurface, modal := closedSurface,
  listeners := false, counter := 0, pending := none, afterCount := 0, events := [],
  hashTracking := true, modalId := some "foo", hash := "", pageScroll := 100,
  savedScrollTop := none, isIOS := false, htmlLocked := false, bodyPadding := 0,
  sbw := 10, modifierNonempty := true, focusCount := 0, wrapperScrollTop := 0 }

/-- Concrete opened instance used as witness input. -/
def sampleOpened : World :=
  { sampleClosed with state := .opened, hash := "foo", htmlLocked := true }

/-- Concrete world whose html element does not carry the locked marker. -/
def sampleUnlocked : World := { sampleClosed with bodyPadding := 50 }

/-- Concrete world whose html element carries the locked marker. -/
def sampleLockedW : World :=
  { sampleClosed with htmlLocked := true, bodyPadding := 50 }

/-- All four probe results are 0. -/
def zeroProbe : Durs := ⟨some 0, some 0, some 0, some 0⟩

/-- The bg probe result is 1 second, the rest 0. -/
def oneProbe : Durs := ⟨some 1, some 0, some 0, some 0⟩

/-- A qualifying animationstart signal. -/
def sigStart : Signal := ⟨.startK, true⟩

/-- A qualifying animationend signal. -/
def sigEnd : Signal := ⟨.endK, true⟩

/-- Concrete world with attached barrier handlers, one running animation and
a pending open after-action. -/
def sampleAttached : World :=
  { sampleClosed with listeners := true, counter := 1, pending := some .toOpened }

/-! ### Helper lemmas about the barrier bookkeeping -/

@[simp] theorem deliverAll_nil (w : World) : deliverAll [] w = w := rfl

@[simp] theorem deliverAll_cons (s : Signal) (rest : List Signal) (w : World) :
    deliverAll (s :: rest) w = deliverAll rest (deliverSignal s w) := rfl

@[simp] theorem screenLockToggle_events (a : LockAction) (w : World) :
    (screenLockToggle a w).events = w.events := by
  unfold screenLockToggle; split_ifs <;> rfl

@[simp] theorem screenLockToggle_listeners (a : LockAction) (w : World) :
    (screenLockToggle a w).listeners = w.listeners := by
  unfold screenLockToggle; split_ifs <;> rfl

@[simp] theorem screenLockToggle_pending (a : LockAction) (w : World) :
    (screenLockToggle a w).pending = w.pending := by
  unfold screenLockToggle; split_ifs <;> rfl

@[simp] theorem screenLockToggle_afterCount (a : LockAction) (w : World) :
    (screenLockToggle a w).afterCount = w.afterCount := by
  unfold screenLockToggle; split_ifs <;> rfl

@[simp] theorem screenLockToggle_state (a : LockAction) (w : World) :
    (screenLockToggle a w).state = w.state := by
  unfold screenLockToggle; split_ifs <;> rfl

@[simp] theorem screenLockToggle_counter (a : LockAction) (w : World) :
    (screenLockToggle a w).counter = w.counter := by
  unfold screenLockToggle; split_ifs <;> rfl

@[simp] theorem applyAfter_listeners (k : TransKind) (w : World) :
    (applyAfter k w).listeners = w.listeners := by
  cases k <;> simp [applyAfter, setState]

@[simp] theorem applyAfter_pending (k : TransKind) (w : World) :
    (applyAfter k w).pending = w.pending := by
  cases k <;> simp [applyAfter, setState]

@[simp] theorem applyAfter_afterCount (k : TransKind) (w : World) :
    (applyAfter k w).afterCount = w.afterCount + 1 := by
  cases k <;> simp [applyAfter, setState]

@[simp] theorem applyAfter_events (k : TransKind) (w : World) :
    (applyAfter k w).events = w.events ++ [afterEvent k] := by
  cases k <;> simp [applyAfter, setState, afterEvent]

theorem applyAfter_state (k : TransKind) (w : World) :
    (applyAfter k w).state = (afterEvent k).1 := by
  cases k <;> simp [applyAfter, setState, afterEvent]

theorem deliverSignal_not_listeners (s : Signal) (w : World)
    (h : w.listeners = false) : deliverSignal s w = w := by
  simp [deliverSignal, h]

theorem deliverAll_not_listeners (sigs : List Signal) (w : World)
    (h : w.listeners = false) : deliverAll sigs w = w := by
  induction sigs with
  | nil => rfl
  | cons s rest ih => rw [deliverAll_cons, deliverSignal_not_listeners s w h]; exact ih

/-- Complete-run dichotomy of the barrier handlers: from an attached state
holding after-action `k`, delivering any signal sequence either leaves the
listeners attached with the after-action never run (no change to the pending
closure, the after-count or the event log), or ends detached with the
after-action run exactly once (event log extended by exactly its
notification). -/
theorem barrier_run (k : TransKind) (sigs : List Signal) :
    ∀ w : World, w.listeners = true → w.pending = some k →
    ((deliverAll sigs w).listeners = true ∧ (deliverAll sigs w).pending = some k ∧
     (deliverAll sigs w).afterCount = w.afterCount ∧ (deliverAll sigs w).events = w.events) ∨
    ((deliverAll sigs w).listeners = false ∧ (deliverAll sigs w).pending = none ∧
     (deliverAll sigs w).afterCount = w.afterCount + 1 ∧
     (deliverAll sigs w).events = w.events ++ [afterEvent k]) := by
  induction sigs with
  | nil => intro w hl hp; left; exact ⟨hl, hp, rfl, rfl⟩
  | cons s rest ih =>
    intro w hl hp
    rw [deliverAll_cons]
    by_cases ht : s.targetIsSurface = false
    · have he : deliverSignal s w = w := by simp [deliverSignal, hl, ht]
      rw [he]; exact ih w hl hp
    · have ht2 : s.targetIsSurface = true := by revert ht; cases s.targetIsSurface <;> simp
      cases hk : s.kind with
      | startK =>
        have he : deliverSignal s w = { w with counter := w.counter + 1 } := by
          simp [deliverSignal, hl, ht2, hk]
        rw [he]; exact ih _ hl hp
      | endK =>
        by_cases hc : w.counter - 1 = 0
        · have he : deliverSignal s w =
              applyAfter k { w with counter := w.counter - 1, listeners := false, pending := none } := by
            simp [deliverSignal, hl, ht2, hk, hc, hp]
          have hl2 : (deliverSignal s w).listeners = false := by rw [he]; simp
          rw [deliverAll_not_listeners rest _ hl2, he]
          right
          refine ⟨by simp, by simp, by simp, by simp⟩
        · have he : deliverSignal s w = { w with counter := w.counter - 1 } := by
            simp [deliverSignal, hl, ht2, hk, hc]
          rw [he]; exact ih _ hl hp

/-! ### Helper lemmas about the synchronous phase of a transition -/

@[simp] theorem beforeAction_listeners (k : TransKind) (w : World) :
    (beforeAction k w).listeners = w.listeners := by
  cases k <;> simp [beforeAction, setState]

@[simp] theorem beforeAction_pending (k : TransKind) (w : World) :
    (beforeAction k w).pending = w.pending := by
  cases k <;> simp [beforeAction, setState]

@[simp] theorem beforeAction_afterCount (k : TransKind) (w : World) :
    (beforeAction k w).afterCount = w.afterCount := by
  cases k <;> simp [beforeAction, setState]

@[simp] theorem beforeAction_counter (k : TransKind) (w : World) :
    (beforeAction k w).counter = w.counter := by
  cases k <;> simp [beforeAction, setState]

@[simp] theorem beforeAction_events (k : TransKind) (w : World) :
    (beforeAction k w).events = w.events ++ [beforeEvent k] := by
  cases k <;> simp [beforeAction, setState, beforeEvent]

theorem beforeAction_state (k : TransKind) (w : World) :
    (beforeAction k w).state = (beforeEvent k).1 := by
  cases k <;> simp [beforeAction, setState, beforeEvent]

theorem sync_pos (k : TransKind) (probe : Durs) (w : World) (h : ¬ allZero probe) :
    syncWithAnimation k probe w =
      beforeAction k { w with counter := 0, listeners := true, pending := some k } := by
  simp [syncWithAnimation, h]

theorem sync_zero (k : TransKind) (probe : Durs) (w : World) (h : allZero probe) :
    syncWithAnimation k probe w =
      applyAfter k
        { beforeAction k { w with counter := 0, listeners := true, pending := some k } with
          listeners := false, pending := none } := by
  simp [syncWithAnimation, h]

theorem sync_pos_listeners (k : TransKind) (probe : Durs) (w : World) (h : ¬ allZero probe) :
    (syncWithAnimation k probe w).listeners = true := by
  rw [sync_pos k probe w h]; simp

theorem sync_pos_pending (k : TransKind) (probe : Durs) (w : World) (h : ¬ allZero probe) :
    (syncWithAnimation k probe w).pending = some k := by
  rw [sync_pos k probe w h]; simp

theorem sync_pos_afterCount (k : TransKind) (probe : Durs) (w : World) (h : ¬ allZero probe) :
    (syncWithAnimation k probe w).afterCount = w.afterCount := by
  rw [sync_pos k probe w h]; simp

theorem sync_pos_events (k : TransKind) (probe : Durs) (w : World) (h : ¬ allZero probe) :
    (syncWithAnimation k probe w).events = w.events ++ [beforeEvent k] := by
  rw [sync_pos k probe w h]; simp

theorem sync_pos_state (k : TransKind) (probe : Durs) (w : World) (h : ¬ allZero probe) :
    (syncWithAnimation k probe w).state = (beforeEvent k).1 := by
  rw [sync_pos k probe w h, beforeAction_state]

theorem sync_zero_listeners (k : TransKind) (probe : Durs) (w : World) (h : allZero probe) :
    (syncWithAnimation k probe w).listeners = false := by
  rw [sync_zero k probe w h]; simp

theorem sync_zero_afterCount (k : TransKind) (probe : Durs) (w : World) (h : allZero probe) :
    (syncWithAnimation k probe w).afterCount = w.afterCount + 1 := by
  rw [sync_zero k probe w h]; simp

theorem sync_zero_events (k : TransKind) (probe : Durs) (w : World) (h : allZero probe) :
    (syncWithAnimation k probe w).events = w.events ++ [beforeEvent k, afterEvent k] := by
  rw [sync_zero k probe w h]; simp

theorem sync_zero_state (k : TransKind) (probe : Durs) (w : World) (h : allZero probe) :
    (syncWithAnimation k probe w).state = (afterEvent k).1 := by
  rw [sync_zero k probe w h, applyAfter_state]

@[simp] theorem recordHashOnOpen_events (w : World) :
    (recordHashOnOpen w).events = w.events := by
  unfold recordHashOnOpen
  rcases w.modalId with _ | id
  · rfl
  · dsimp only; split_ifs <;> rfl

@[simp] theorem recordHashOnOpen_state (w : World) :
    (recordHashOnOpen w).state = w.state := by
  unfold recordHashOnOpen
  rcases w.modalId with _ | id
  · rfl
  · dsimp only; split_ifs <;> rfl

@[simp] theorem recordHashOnOpen_afterCount (w : World) :
    (recordHashOnOpen w).afterCount = w.afterCount := by
  unfold recordHashOnOpen
  rcases w.modalId with _ | id
  · rfl
  · dsimp only; split_ifs <;> rfl

@[simp] theorem recordHashOnOpen_focusCount (w : World) :
    (recordHashOnOpen w).focusCount = w.focusCount := by
  unfold recordHashOnOpen
  rcases w.modalId with _ | id
  · rfl
  · dsimp only; split_ifs <;> rfl

@[simp] theorem showSurfaces_events (w : World) :
    (showSurfaces w).events = w.events := by
  simp [showSurfaces]

@[simp] theorem showSurfaces_afterCount (w : World) :
    (showSurfaces w).afterCount = w.afterCount := by
  simp [showSurfaces]

@[simp] theorem showSurfaces_state (w : World) :
    (showSurfaces w).state = w.state := by
  simp [showSurfaces]

@[simp] theorem showSurfaces_focusCount (w : World) :
    (showSurfaces w).focusCount = w.focusCount + 1 := by
  simp [showSurfaces]

@[simp] theorem screenLockToggle_focusCount (a : LockAction) (w : World) :
    (screenLockToggle a w).focusCount = w.focusCount := by
  unfold screenLockToggle; split_ifs <;> rfl

@[simp] theorem screenLockToggle_hash (a : LockAction) (w : World) :
    (screenLockToggle a w).hash = w.hash := by
  unfold screenLockToggle; split_ifs <;> rfl

@[simp] theorem showSurfaces_hash (w : World) :
    (showSurfaces w).hash = w.hash := by
  simp [showSurfaces]

@[simp] theorem showSurfaces_savedScrollTop (w : World) :
    (showSurfaces w).savedScrollTop = w.savedScrollTop := by
  simp [showSurfaces]

@[simp] theorem screenLockToggle_savedScrollTop (a : LockAction) (w : World) :
    (screenLockToggle a w).savedScrollTop = w.savedScrollTop := by
  unfold screenLockToggle; split_ifs <;> rfl

@[simp] theorem clearHashOnClose_events (w : World) :
    (clearHashOnClose w).events = w.events := by
  unfold clearHashOnClose; split_ifs <;> rfl

@[simp] theorem clearHashOnClose_state (w : World) :
    (clearHashOnClose w).state = w.state := by
  unfold clearHashOnClose; split_ifs <;> rfl

@[simp] theorem clearHashOnClose_afterCount (w : World) :
    (clearHashOnClose w).afterCount = w.afterCount := by
  unfold clearHashOnClose; split_ifs <;> rfl

@[simp] theorem beforeAction_focusCount (k : TransKind) (w : World) :
    (beforeAction k w).focusCount = w.focusCount := by
  cases k <;> simp [beforeAction, setState]

@[simp] theorem applyAfter_focusCount (k : TransKind) (w : World) :
    (applyAfter k w).focusCount = w.focusCount := by
  cases k <;> simp [applyAfter, setState]

@[simp] theorem beforeAction_hash (k : TransKind) (w : World) :
    (beforeAction k w).hash = w.hash := by
  cases k <;> simp [beforeAction, setState]

@[simp] theorem applyAfter_hash (k : TransKind) (w : World) :
    (applyAfter k w).hash = w.hash := by
  cases k <;> simp [applyAfter, setState]

@[simp] theorem beforeAction_savedScrollTop (k : TransKind) (w : World) :
    (beforeAction k w).savedScrollTop = w.savedScrollTop := by
  cases k <;> simp [beforeAction, setState]

@[simp] theorem applyAfter_savedScrollTop (k : TransKind) (w : World) :
    (applyAfter k w).savedScrollTop = w.savedScrollTop := by
  cases k <;> simp [applyAfter, setState]

theorem sync_focusCount (k : TransKind) (probe : Durs) (w : World) :
    (syncWithAnimation k probe w).focusCount = w.focusCount := by
  by_cases h : allZero probe
  · rw [sync_zero k probe w h]; simp
  · rw [sync_pos k probe w h]; simp

theorem sync_hash (k : TransKind) (probe : Durs) (w : World) :
    (syncWithAnimation k probe w).hash = w.hash := by
  by_cases h : allZero probe
  · rw [sync_zero k probe w h]; simp
  · rw [sync_pos k probe w h]; simp

theorem sync_savedScrollTop (k : TransKind) (probe : Durs) (w : World) :
    (syncWithAnimation k probe w).savedScrollTop = w.savedScrollTop := by
  by_cases h : allZero probe
  · rw [sync_zero k probe w h]; simp
  · rw [sync_pos k probe w h]; simp

/-! ### Composite lemmas about openM and closeM -/

theorem openM_noop (probe : Durs) (w : World)
    (h : w.state = .opening ∨ w.state = .closing) : openM probe w = w := by
  simp [openM, h]

theorem openM_pos (probe : Durs) (w : World)
    (h : ¬ (w.state = .opening ∨ w.state = .closing)) :
    openM probe w =
      syncWithAnimation .toOpened probe
        (showSurfaces (screenLockToggle .lock (recordHashOnOpen w))) := by
  simp [openM, h]

theorem closeM_noop (probe : Durs) (r : Option Reason) (w : World)
    (h : w.state = .opening ∨ w.state = .closing ∨ w.state = .closed) :
    closeM probe r w = w := by
  simp [closeM, h]

theorem closeM_pos (probe : Durs) (r : Option Reason) (w : World)
    (h : ¬ (w.state = .opening ∨ w.state = .closing ∨ w.state = .closed)) :
    closeM probe r w = syncWithAnimation (.toClosed r) probe (clearHashOnClose w) := by
  simp [closeM, h]

theorem openM_events (probe : Durs) (w : World)
    (h : ¬ (w.state = .opening ∨ w.state = .closing)) :
    (openM probe w).events =
      w.events ++ (RState.opening, (none : Option Reason)) ::
        (if allZero probe then [(RState.opened, (none : Option Reason))] else []) := by
  rw [openM_pos probe w h]
  by_cases hz : allZero probe
  · rw [sync_zero_events _ _ _ hz]; simp [beforeEvent, afterEvent, hz]
  · rw [sync_pos_events _ _ _ hz]; simp [beforeEvent, hz]

theorem closeM_events (probe : Durs) (r : Option Reason) (w : World)
    (h : ¬ (w.state = .opening ∨ w.state = .closing ∨ w.state = .closed)) :
    (closeM probe r w).events =
      w.events ++ (RState.closing, r) ::
        (if allZero probe then [(RState.closed, r)] else []) := by
  rw [closeM_pos probe r w h]
  by_cases hz : allZero probe
  · rw [sync_zero_events _ _ _ hz]; simp [beforeEvent, afterEvent, hz]
  · rw [sync_pos_events _ _ _ hz]; simp [beforeEvent, hz]

theorem openM_ne (probe : Durs) (w : World)
    (h : ¬ (w.state = .opening ∨ w.state = .closing)) : openM probe w ≠ w := by
  intro he
  have hlen : (openM probe w).events.length = w.events.length :=
    congrArg (fun x => x.events.length) he
  rw [openM_events probe w h] at hlen
  by_cases hz : allZero probe <;> simp [hz] at hlen

theorem closeM_ne (probe : Durs) (r : Option Reason) (w : World)
    (h : ¬ (w.state = .opening ∨ w.state = .closing ∨ w.state = .closed)) :
    closeM probe r w ≠ w := by
  intro he
  have hlen : (closeM probe r w).events.length = w.events.length :=
    congrArg (fun x => x.events.length) he
  rw [closeM_events probe r w h] at hlen
  by_cases hz : allZero probe <;> simp [hz] at hlen

theorem openM_state (probe : Durs) (w : World)
    (h : ¬ (w.state = .opening ∨ w.state = .closing)) :
    (openM probe w).state = (if allZero probe then RState.opened else RState.opening) := by
  rw [openM_pos probe w h]
  by_cases hz : allZero probe
  · rw [sync_zero_state _ _ _ hz]; simp [afterEvent, hz]
  · rw [sync_pos_state _ _ _ hz]; simp [beforeEvent, hz]

theorem closeM_state (probe : Durs) (r : Option Reason) (w : World)
    (h : ¬ (w.state = .opening ∨ w.state = .closing ∨ w.state = .closed)) :
    (closeM probe r w).state = (if allZero probe then RState.closed else RState.closing) := by
  rw [closeM_pos probe r w h]
  by_cases hz : allZero probe
  · rw [sync_zero_state _ _ _ hz]; simp [afterEvent, hz]
  · rw [sync_pos_state _ _ _ hz]; simp [beforeEvent, hz]

theorem openM_focusCount (probe : Durs) (w : World)
    (h : ¬ (w.state = .opening ∨ w.state = .closing)) :
    (openM probe w).focusCount = w.focusCount + 1 := by
  rw [openM_pos probe w h, sync_focusCount]; simp

theorem openM_hash (probe : Durs) (w : World) (id : String)
    (h : ¬ (w.state = .opening ∨ w.state = .closing))
    (hid : w.modalId = some id) (hne : id ≠ "") (hht : w.hashTracking = true) :
    (openM probe w).hash = id ∧ (openM probe w).savedScrollTop = some w.pageScroll := by
  rw [openM_pos probe w h, sync_hash, sync_savedScrollTop]
  have hrec : recordHashOnOpen w =
      { w with savedScrollTop := some w.pageScroll, hash := id } := by
    unfold recordHashOnOpen; rw [hid]; simp [hne, hht]
  simp [hrec]

@[simp] theorem clearHashOnClose_listeners (w : World) :
    (clearHashOnClose w).listeners = w.listeners := by
  unfold clearHashOnClose; split_ifs <;> rfl

@[simp] theorem clearHashOnClose_pending (w : World) :
    (clearHashOnClose w).pending = w.pending := by
  unfold clearHashOnClose; split_ifs <;> rfl

theorem closeM_listeners_pos (probe : Durs) (r : Option Reason) (w : World)
    (h : ¬ (w.state = .opening ∨ w.state = .closing ∨ w.state = .closed))
    (hz : ¬ allZero probe) : (closeM probe r w).listeners = true := by
  rw [closeM_pos probe r w h]; exact sync_pos_listeners _ _ _ hz

theorem closeM_pending_pos (probe : Durs) (r : Option Reason) (w : World)
    (h : ¬ (w.state = .opening ∨ w.state = .closing ∨ w.state = .closed))
    (hz : ¬ allZero probe) : (closeM probe r w).pending = some (.toClosed r) := by
  rw [closeM_pos probe r w h]; exact sync_pos_pending _ _ _ hz

theorem closeM_listeners_zero (probe : Durs) (r : Option Reason) (w : World)
    (h : ¬ (w.state = .opening ∨ w.state = .closing ∨ w.state = .closed))
    (hz : allZero probe) : (closeM probe r w).listeners = false := by
  rw [closeM_pos probe r w h]; exact sync_zero_listeners _ _ _ hz

/-! ### Event counting -/

@[simp] theorem countSt_nil (s : RState) : countSt s [] = 0 := rfl

theorem countSt_append (s : RState) (a b : List (RState × Option Reason)) :
    countSt s (a ++ b) = countSt s a + countSt s b := by
  simp [countSt, List.filter_append]

theorem countSt_cons (s : RState) (e : RState × Option Reason)
    (evs : List (RState × Option Reason)) :
    countSt s (e :: evs) = countSt s evs + (if e.1 = s then 1 else 0) := by
  by_cases h : e.1 = s <;> simp [countSt, List.filter_cons, h, Nat.add_comm]

/-! ### Lemmas about haltM -/

@[simp] theorem setState_htmlLocked (s : RState) (sil : Bool) (r : Option Reason) (w : World) :
    (setState s sil r w).htmlLocked = w.htmlLocked := by
  unfold setState; split_ifs <;> rfl

@[simp] theorem setState_listeners (s : RState) (sil : Bool) (r : Option Reason) (w : World) :
    (setState s sil r w).listeners = w.listeners := by
  unfold setState; split_ifs <;> rfl

@[simp] theorem setState_state (s : RState) (sil : Bool) (r : Option Reason) (w : World) :
    (setState s sil r w).state = s := by
  unfold setState; split_ifs <;> rfl

@[simp] theorem setState_silent_events (s : RState) (r : Option Reason) (w : World) :
    (setState s true r w).events = w.events := by
  unfold setState; simp

@[simp] theorem setState_overlay_visible (s : RState) (sil : Bool) (r : Option Reason) (w : World) :
    (setState s sil r w).overlay.visible = w.overlay.visible := by
  unfold setState; split_ifs <;> rfl

@[simp] theorem setState_wrapper_visible (s : RState) (sil : Bool) (r : Option Reason) (w : World) :
    (setState s sil r w).wrapper.visible = w.wrapper.visible := by
  unfold setState; split_ifs <;> rfl

@[simp] theorem setState_bg_hasModifier (s : RState) (sil : Bool) (r : Option Reason) (w : World) :
    (setState s sil r w).bg.hasModifier = w.bg.hasModifier := by
  unfold setState; split_ifs <;> rfl

@[simp] theorem setState_overlay_hasModifier (s : RState) (sil : Bool) (r : Option Reason) (w : World) :
    (setState s sil r w).overlay.hasModifier = w.overlay.hasModifier := by
  unfold setState; split_ifs <;> rfl

@[simp] theorem screenLockToggle_bg (a : LockAction) (w : World) :
    (screenLockToggle a w).bg = w.bg := by
  unfold screenLockToggle; split_ifs <;> rfl

@[simp] theorem screenLockToggle_overlay (a : LockAction) (w : World) :
    (screenLockToggle a w).overlay = w.overlay := by
  unfold screenLockToggle; split_ifs <;> rfl

@[simp] theorem screenLockToggle_wrapper (a : LockAction) (w : World) :
    (screenLockToggle a w).wrapper = w.wrapper := by
  unfold screenLockToggle; split_ifs <;> rfl

theorem screenLockToggle_unlock_htmlLocked (w : World) :
    (screenLockToggle .unlock w).htmlLocked = (w.isIOS && w.htmlLocked) := by
  unfold screenLockToggle
  split_ifs with h1 h2 <;> simp_all

@[simp] theorem screenLockToggle_isIOS (a : LockAction) (w : World) :
    (screenLockToggle a w).isIOS = w.isIOS := by
  unfold screenLockToggle; split_ifs <;> rfl

theorem haltM_unfolded (w : World) (h : ¬ w.state = .closed) :
    haltM w =
      setState .closed true none
        (screenLockToggle .unlock
          { w with
            listeners := false,
            bg := removeModifierCls w.modifierNonempty w.bg,
            overlay :=
              { removeModifierCls w.modifierNonempty w.overlay with visible := false },
            wrapper := { w.wrapper with visible := false } }) := by
  simp [haltM, h]

theorem haltM_listeners (w : World) (h : ¬ w.state = .closed) :
    (haltM w).listeners = false := by
  rw [haltM_unfolded w h]; simp

theorem qualStartCount_cons (s : Signal) (rest : List Signal) :
    qualStartCount (s :: rest) =
      qualStartCount rest +
        (if s.targetIsSurface && (decide (s.kind = .startK)) then 1 else 0) := by
  by_cases h : s.targetIsSurface && (decide (s.kind = .startK)) <;>
    simp [qualStartCount, List.filter_cons, h, Nat.add_comm]

/-- Delivering signals that contain no qualifying end leaves the listeners
attached, never runs the after-action, and bumps the counter by exactly the
number of qualifying starts. -/
theorem deliver_no_end (sigs : List Signal) :
    ∀ w : World, w.listeners = true → (∀ s ∈ sigs, ¬ isQualEnd s) →
    (deliverAll sigs w).listeners = true ∧
    (deliverAll sigs w).afterCount = w.afterCount ∧
    (deliverAll sigs w).counter = w.counter + (qualStartCount sigs : Int) := by
  induction sigs with
  | nil => intro w hl _; exact ⟨hl, rfl, by simp [qualStartCount]⟩
  | cons s rest ih =>
    intro w hl hne
    have hrest : ∀ x ∈ rest, ¬ isQualEnd x := fun x hx => hne x (List.mem_cons_of_mem s hx)
    rw [deliverAll_cons]
    by_cases ht : s.targetIsSurface = false
    · have he : deliverSignal s w = w := by simp [deliverSignal, hl, ht]
      rw [he, qualStartCount_cons]
      have hif : (if s.targetIsSurface && (decide (s.kind = .startK)) then 1 else 0) = 0 := by
        simp [ht]
      rw [hif]
      exact ih w hl hrest
    · have ht2 : s.targetIsSurface = true := by revert ht; cases s.targetIsSurface <;> simp
      have hk : s.kind = .startK := by
        cases hk2 : s.kind
        · rfl
        · exact absurd ⟨ht2, hk2⟩ (hne s (List.mem_cons_self s rest))
      have he : deliverSignal s w = { w with counter := w.counter + 1 } := by
        simp [deliverSignal, hl, ht2, hk]
      rw [he, qualStartCount_cons]
      have hif : (if s.targetIsSurface && (decide (s.kind = .startK)) then 1 else 0) = 1 := by
        simp [ht2, hk]
      rw [hif]
      obtain ⟨h1, h2, h3⟩ := ih { w with counter := w.counter + 1 } hl hrest
      refine ⟨h1, h2, ?_⟩
      rw [h3]
      push_cast
      ring

theorem animStep_eq_specMaxStep (v : ℚ) (mx : Option ℚ) :
    animStep (some v) mx = specMaxStep mx v := by
  cases mx with
  | none => rfl
  | some m =>
    show (if v > m then some v else some m) = some (max m v)
    split_ifs with h
    · rw [max_eq_right h.le]
    · rw [max_eq_left (not_lt.mp h)]

/-- The implementation loop of `getAnimationDuration` agrees with the
spec-side running maximum when the three style lists are fully parsed and of
equal length. -/
theorem animLoop_spec :
    ∀ (d dl : List ℚ) (c : List Int) (mx : Option ℚ),
    dl.length = d.length → c.length = d.length →
    animLoop (d.map some) (dl.map some) (c.map some) mx =
      (specDurations d dl c).foldl specMaxStep mx := by
  intro d
  induction d with
  | nil =>
    intro dl c mx h1 h2
    simp [animLoop, specDurations]
  | cons dv ds ih =>
    intro dl c mx h1 h2
    cases dl with
    | nil => simp at h1
    | cons dlv dls =>
      cases c with
      | nil => simp at h2
      | cons cv cs =>
        have h1' : dls.length = ds.length := by simpa using h1
        have h2' : cs.length = ds.length := by simpa using h2
        have hone : animLoop ((dv :: ds).map some) ((dlv :: dls).map some)
              ((cv :: cs).map some) mx =
            animLoop (ds.map some) (dls.map some) (cs.map some)
              (animStep (some (dv * (cv : ℚ) + dlv)) mx) := rfl
        rw [hone, animStep_eq_specMaxStep, ih dls cs _ h1' h2']
        simp [specDurations, specEntryDuration]

/-! ### Claim theorems -/

/-- C8: `halt` on an instance whose state is not Closed immediately detaches
the animation handlers, strips the modifier class (from bg and overlay),
hides overlay and wrapper, unlocks the screen, and silently sets the state
to Closed — the event log is unchanged and any pending after-action is
abandoned (delivering any further signals changes nothing); `halt` on an
instance already Closed changes nothing. -/
theorem c8_halt_forced_close (w : World) :
    (w.state = .closed → haltM w = w) ∧
    (w.state ≠ .closed →
      (haltM w).state = .closed ∧
      (haltM w).listeners = false ∧
      (haltM w).events = w.events ∧
      (haltM w).overlay.visible = false ∧
      (haltM w).wrapper.visible = false ∧
      (w.modifierNonempty = true →
        (haltM w).bg.hasModifier = false ∧ (haltM w).overlay.hasModifier = false) ∧
      (haltM w).htmlLocked = (w.isIOS && w.htmlLocked) ∧
      (∀ sigs : List Signal, deliverAll sigs (haltM w) = haltM w)) := by
  constructor
  · intro h; simp [haltM, h]
  · intro h
    refine ⟨?_, haltM_listeners w h, ?_, ?_, ?_, ?_, ?_, ?_⟩
    · rw [haltM_unfolded w h]; simp
    · rw [haltM_unfolded w h]; simp
    · rw [haltM_unfolded w h]; simp
    · rw [haltM_unfolded w h]; simp
    · intro hm
      rw [haltM_unfolded w h]
      constructor <;> simp [removeModifierCls, hm]
    · rw [haltM_unfolded w h]
      rw [setState_htmlLocked, screenLockToggle_unlock_htmlLocked]
    · intro sigs
      exact deliverAll_not_listeners sigs (haltM w) (haltM_listeners w h)

/-- C8 witness: halting the concrete opened world closes it silently, and
halting a closed world is the identity. -/
theorem c8_halt_forced_close_witness :
    haltM sampleClosed = sampleClosed ∧
    (haltM sampleOpened).state = .closed ∧
    (haltM sampleOpened).events = sampleOpened.events ∧
    (haltM sampleOpened).htmlLocked = (sampleOpened.isIOS && sampleOpened.htmlLocked) :=
  ⟨(c8_halt_forced_close sampleClosed).1 rfl,
   ((c8_halt_forced_close sampleOpened).2 (by decide)).1,
   ((c8_halt_forced_close sampleOpened).2 (by decide)).2.2.1,
   ((c8_halt_forced_close sampleOpened).2 (by decide)).2.2.2.2.2.2.1⟩

/-- C7 counterexample: with the locked marker absent (and not on iOS, with a
nonzero scrollbar width), invoking the toggle with `lock` changes nothing —
in particular it does not apply the locked marker class and does not subtract
the scrollbar width from the body padding, contrary to the claim that `lock`
acts exactly when the marker is not yet present. -/
theorem c7_lock_counterexample :
    sampleUnlocked.htmlLocked = false ∧
    sampleUnlocked.isIOS = false ∧
    sampleUnlocked.sbw = 10 ∧
    sampleUnlocked.bodyPadding = 50 ∧
    screenLockToggle .lock sampleUnlocked = sampleUnlocked ∧
    (screenLockToggle .lock sampleUnlocked).htmlLocked = false ∧
    (screenLockToggle .lock sampleUnlocked).bodyPadding = 50 := by
  decide

/-- C7 amended: the whole toggle body is gated on the locked marker being
currently present, for both directions: on iOS the toggle does nothing; when
the marker is absent both `lock` and `unlock` do nothing; when the marker is
present, `unlock` removes it and adds the scrollbar width back (so repeating
`unlock` has no further effect), while `lock` keeps the marker and subtracts
the scrollbar width (so repeating `lock` subtracts again — the lock
direction is not idempotent on the padding). -/
theorem c7_screen_lock_amended (w : World) (a : LockAction) :
    (w.isIOS = true → screenLockToggle a w = w) ∧
    (w.htmlLocked = false → screenLockToggle a w = w) ∧
    (w.isIOS = false → w.htmlLocked = true →
      screenLockToggle .unlock w =
        { w with htmlLocked := false, bodyPadding := w.bodyPadding + w.sbw } ∧
      screenLockToggle .unlock (screenLockToggle .unlock w) =
        screenLockToggle .unlock w ∧
      screenLockToggle .lock w =
        { w with htmlLocked := true, bodyPadding := w.bodyPadding - w.sbw } ∧
      (screenLockToggle .lock (screenLockToggle .lock w)).bodyPadding =
        w.bodyPadding - w.sbw - w.sbw) := by
  refine ⟨?_, ?_, ?_⟩
  · intro h; simp [screenLockToggle, h]
  · intro h; unfold screenLockToggle; split_ifs with h1 h2 <;> simp_all
  · intro hi hl
    have hu : screenLockToggle .unlock w =
        { w with htmlLocked := false, bodyPadding := w.bodyPadding + w.sbw } := by
      unfold screenLockToggle; split_ifs with h1 h2 <;> simp_all
    have hlk : screenLockToggle .lock w =
        { w with htmlLocked := true, bodyPadding := w.bodyPadding - w.sbw } := by
      unfold screenLockToggle; split_ifs with h1 h2 <;> simp_all
    refine ⟨hu, ?_, hlk, ?_⟩
    · rw [hu]
      unfold screenLockToggle; split_ifs with h1 h2 <;> simp_all
    · rw [hlk]
      have hlk2 : screenLockToggle .lock
          { w with htmlLocked := true, bodyPadding := w.bodyPadding - w.sbw } =
          { w with htmlLocked := true,
                   bodyPadding := w.bodyPadding - w.sbw - w.sbw } := by
        unfold screenLockToggle; split_ifs with h1 h2 <;> simp_all
      rw [hlk2]

/-- C7 witness: the amended toggle behavior evaluated at concrete worlds. -/
theorem c7_screen_lock_amended_witness :
    screenLockToggle .lock sampleUnlocked = sampleUnlocked ∧
    (screenLockToggle .lock (screenLockToggle .lock sampleLockedW)).bodyPadding =
      sampleLockedW.bodyPadding - sampleLockedW.sbw - sampleLockedW.sbw :=
  ⟨(c7_screen_lock_amended sampleUnlocked .lock).2.1 rfl,
   ((c7_screen_lock_amended sampleLockedW .lock).2.2 rfl rfl).2.2.2⟩

/-- C6: the claim says closing restores the page scroll position to the
pre-open offset recorded by `open`; the code records the offset into the
module-level `scrollTop` variable but never reads it, and instead calls
`window.scrollTo(0, 0)`.  At the concrete failing input (page scrolled to
100, hash tracking on, fragment matching), `open` records 100, yet `close`
leaves the page scroll at 0, not 100. -/
theorem c6_scroll_restore_divergence :
    (openM zeroProbe sampleClosed).savedScrollTop = some 100 ∧
    (openM zeroProbe sampleClosed).state = .opened ∧
    (openM zeroProbe sampleClosed).hash = "foo" ∧
    (closeM zeroProbe none (openM zeroProbe sampleClosed)).hash = "" ∧
    (closeM zeroProbe none (openM zeroProbe sampleClosed)).state = .closed ∧
    (closeM zeroProbe none (openM zeroProbe sampleClosed)).pageScroll = 0 ∧
    (closeM zeroProbe none (openM zeroProbe sampleClosed)).savedScrollTop = some 100 ∧
    (closeM zeroProbe none (openM zeroProbe sampleClosed)).pageScroll ≠ 100 := by
  decide

/-- C2: `open()` is a no-op exactly when the state is Opening or Closing
(on an Opened instance it re-runs the full open sequence, re-focusing the
modal and re-writing the fragment); `close()` is a no-op exactly when the
state is Opening, Closing or Closed; and calling `close()` twice in
immediate succession on an Opened instance yields exactly one closing
notification, the second call being a strict no-op, with at most (and, on
barrier completion, exactly) one closed notification. -/
theorem c2_open_close_guards :
    (∀ (probe : Durs) (w : World),
      openM probe w = w ↔ (w.state = .opening ∨ w.state = .closing)) ∧
    (∀ (probe : Durs) (r : Option Reason) (w : World),
      closeM probe r w = w ↔
        (w.state = .opening ∨ w.state = .closing ∨ w.state = .closed)) ∧
    (∀ (probe : Durs) (w : World) (id : String),
      w.state = .opened → w.modalId = some id → id ≠ "" → w.hashTracking = true →
      (openM probe w).focusCount = w.focusCount + 1 ∧ (openM probe w).hash = id) ∧
    (∀ (probe : Durs) (r : Option Reason) (w : World), w.state = .opened →
      closeM probe r (closeM probe r w) = closeM probe r w ∧
      countSt .closing (closeM probe r w).events = countSt .closing w.events + 1 ∧
      (∀ sigs : List Signal,
        countSt .closing (deliverAll sigs (closeM probe r w)).events =
          countSt .closing w.events + 1 ∧
        countSt .closed (deliverAll sigs (closeM probe r w)).events ≤
          countSt .closed w.events + 1 ∧
        ((deliverAll sigs (closeM probe r w)).listeners = false →
          countSt .closed (deliverAll sigs (closeM probe r w)).events =
            countSt .closed w.events + 1))) := by
  have hguard : ∀ w : World, w.state = .opened →
      ¬ (w.state = .opening ∨ w.state = .closing ∨ w.state = .closed) := by
    intro w hw; rw [hw]; intro hc
    rcases hc with h | h | h <;> cases h
  refine ⟨?_, ?_, ?_, ?_⟩
  · intro probe w
    constructor
    · intro he
      by_contra h
      exact openM_ne probe w h he
    · exact openM_noop probe w
  · intro probe r w
    constructor
    · intro he
      by_contra h
      exact closeM_ne probe r w h he
    · exact closeM_noop probe r w
  · intro probe w id hw hid hne hht
    have h : ¬ (w.state = .opening ∨ w.state = .closing) := by
      rw [hw]; intro hc; rcases hc with h | h <;> cases h
    exact ⟨openM_focusCount probe w h, (openM_hash probe w id h hid hne hht).1⟩
  · intro probe r w hw
    have h := hguard w hw
    have hev := closeM_events probe r w h
    have hcl : countSt .closing (closeM probe r w).events =
        countSt .closing w.events + 1 := by
      rw [hev]; by_cases hz : allZero probe <;>
        simp [hz, countSt_append, countSt_cons]
    refine ⟨?_, hcl, ?_⟩
    · have hst := closeM_state probe r w h
      apply closeM_noop
      by_cases hz : allZero probe
      · right; right; rw [hst]; simp [hz]
      · right; left; rw [hst]; simp [hz]
    · intro sigs
      by_cases hz : allZero probe
      · have hl0 := closeM_listeners_zero probe r w h hz
        rw [deliverAll_not_listeners sigs _ hl0]
        have hcd : countSt .closed (closeM probe r w).events =
            countSt .closed w.events + 1 := by
          rw [hev]; simp [hz, countSt_append, countSt_cons]
        exact ⟨hcl, le_of_eq hcd, fun _ => hcd⟩
      · have hl1 := closeM_listeners_pos probe r w h hz
        have hp1 := closeM_pending_pos probe r w h hz
        have hevp : (closeM probe r w).events = w.events ++ [(RState.closing, r)] := by
          rw [hev]; simp [hz]
        rcases barrier_run (.toClosed r) sigs (closeM probe r w) hl1 hp1 with
          ⟨hL, _, _, hE⟩ | ⟨hL, _, _, hE⟩
        · rw [hE, hevp]
          refine ⟨by simp [countSt_append, countSt_cons], ?_, ?_⟩
          · simp [countSt_append, countSt_cons]
          · intro hf; rw [hL] at hf; cases hf
        · rw [hE, hevp]
          refine ⟨?_, ?_, ?_⟩
          · simp [countSt_append, countSt_cons, afterEvent]
          · simp [countSt_append, countSt_cons, afterEvent]
          · intro _; simp [countSt_append, countSt_cons, afterEvent]

/-- C1: in a barrier run driven by handler counting (some probed duration is
nonzero), the after-action has not run at the end of the synchronous phase,
runs at most once over any delivered signal sequence, runs exactly once
precisely when the run completes (listeners detached), and a delivery step
runs it precisely on a qualifying end signal whose decrement brings the
counter to exactly zero — at which step the handlers are detached. -/
theorem c1_barrier_exactly_once (k : TransKind) (probe : Durs) (w : World)
    (sigs : List Signal) :
    ((deliverAll sigs (syncWithAnimation k probe w)).afterCount ≤ w.afterCount + 1) ∧
    ((deliverAll sigs (syncWithAnimation k probe w)).afterCount = w.afterCount + 1 ↔
      (deliverAll sigs (syncWithAnimation k probe w)).listeners = false) ∧
    (¬ allZero probe →
      (syncWithAnimation k probe w).afterCount = w.afterCount ∧
      (syncWithAnimation k probe w).listeners = true) ∧
    (∀ (wmid : World) (s : Signal) (kmid : TransKind),
      wmid.listeners = true → wmid.pending = some kmid →
      (((deliverSignal s wmid).afterCount = wmid.afterCount + 1) ↔
        (s.targetIsSurface = true ∧ s.kind = .endK ∧ wmid.counter = 1)) ∧
      ((deliverSignal s wmid).afterCount = wmid.afterCount + 1 →
        (deliverSignal s wmid).listeners = false)) := by
  have hmain :
      (deliverAll sigs (syncWithAnimation k probe w)).afterCount ≤ w.afterCount + 1 ∧
      ((deliverAll sigs (syncWithAnimation k probe w)).afterCount = w.afterCount + 1 ↔
        (deliverAll sigs (syncWithAnimation k probe w)).listeners = false) := by
    by_cases hz : allZero probe
    · have hl0 := sync_zero_listeners k probe w hz
      have ha0 := sync_zero_afterCount k probe w hz
      rw [deliverAll_not_listeners sigs _ hl0, ha0]
      exact ⟨le_rfl, by simp [hl0]⟩
    · have hl1 := sync_pos_listeners k probe w hz
      have hp1 := sync_pos_pending k probe w hz
      have ha1 := sync_pos_afterCount k probe w hz
      rcases barrier_run k sigs _ hl1 hp1 with ⟨hL, _, hA, _⟩ | ⟨hL, _, hA, _⟩
      · rw [hA, ha1]
        refine ⟨Nat.le_succ _, ?_⟩
        rw [hL]
        constructor
        · intro hc; omega
        · intro hc; cases hc
      · rw [hA, ha1]
        exact ⟨le_rfl, by simp [hL]⟩
  refine ⟨hmain.1, hmain.2, ?_, ?_⟩
  · intro hz
    exact ⟨sync_pos_afterCount k probe w hz, sync_pos_listeners k probe w hz⟩
  · intro wmid s kmid hl hp
    by_cases ht : s.targetIsSurface = false
    · have he : deliverSignal s wmid = wmid := by simp [deliverSignal, hl, ht]
      rw [he]
      constructor
      · constructor
        · intro hc; omega
        · rintro ⟨h1, -⟩; rw [h1] at ht; cases ht
      · intro hc; omega
    · have ht2 : s.targetIsSurface = true := by revert ht; cases s.targetIsSurface <;> simp
      cases hk : s.kind with
      | startK =>
        have he : deliverSignal s wmid = { wmid with counter := wmid.counter + 1 } := by
          simp [deliverSignal, hl, ht2, hk]
        rw [he]
        constructor
        · constructor
          · intro hc; simp at hc
          · rintro ⟨-, h2, -⟩; cases h2
        · intro hc; simp at hc
      | endK =>
        by_cases hc : wmid.counter - 1 = 0
        · have he : deliverSignal s wmid =
              applyAfter kmid
                { wmid with
                  counter := wmid.counter - 1,
                  listeners := false, pending := none } := by
            simp [deliverSignal, hl, ht2, hk, hc, hp]
          rw [he]
          constructor
          · constructor
            · intro _; exact ⟨ht2, rfl, by omega⟩
            · intro _; simp
          · intro _; simp
        · have he : deliverSignal s wmid = { wmid with counter := wmid.counter - 1 } := by
            simp [deliverSignal, hl, ht2, hk, hc]
          rw [he]
          constructor
          · constructor
            · intro hca; simp at hca
            · rintro ⟨-, -, h3⟩; exact absurd (by omega) hc
          · intro hca; simp at hca

/-- C1 witness: a run with a nonzero bg probe; two overlapping animations
fire, and the after-action runs exactly once, on the second end signal. -/
theorem c1_barrier_exactly_once_witness :
    (deliverAll [sigStart, sigStart, sigEnd, sigEnd]
        (syncWithAnimation .toOpened oneProbe sampleClosed)).afterCount ≤
      sampleClosed.afterCount + 1 ∧
    ((deliverAll [sigStart, sigStart, sigEnd, sigEnd]
        (syncWithAnimation .toOpened oneProbe sampleClosed)).afterCount =
      sampleClosed.afterCount + 1 ↔
      (deliverAll [sigStart, sigStart, sigEnd, sigEnd]
        (syncWithAnimation .toOpened oneProbe sampleClosed)).listeners = false) ∧
    (syncWithAnimation .toOpened oneProbe sampleClosed).afterCount =
      sampleClosed.afterCount ∧
    ((deliverSignal sigEnd sampleAttached).afterCount = sampleAttached.afterCount + 1 ↔
      (sigEnd.targetIsSurface = true ∧ sigEnd.kind = .endK ∧
        sampleAttached.counter = 1)) :=
  ⟨(c1_barrier_exactly_once .toOpened oneProbe sampleClosed
      [sigStart, sigStart, sigEnd, sigEnd]).1,
   (c1_barrier_exactly_once .toOpened oneProbe sampleClosed
      [sigStart, sigStart, sigEnd, sigEnd]).2.1,
   ((c1_barrier_exactly_once .toOpened oneProbe sampleClosed
      [sigStart, sigStart, sigEnd, sigEnd]).2.2.1 (by decide)).1,
   ((c1_barrier_exactly_once .toOpened oneProbe sampleClosed
      [sigStart, sigStart, sigEnd, sigEnd]).2.2.2
      sampleAttached sigEnd .toOpened rfl rfl).1⟩

/-- C4: if all four probed durations are exactly 0, the barrier detaches its
handlers and runs the after-action within the synchronous phase: `close` on
an Opened instance returns with the state already Closed and both closing
and closed notifications emitted, `open` on a Closed instance returns with
the state already Opened; and the probed duration agrees with the spec
formula — the maximum over comma-separated entries of duration times
iteration-count plus delay. -/
theorem c4_zero_duration_short_circuit :
    (∀ (k : TransKind) (probe : Durs) (w : World), allZero probe →
      (syncWithAnimation k probe w).listeners = false ∧
      (syncWithAnimation k probe w).afterCount = w.afterCount + 1) ∧
    (∀ (probe : Durs) (r : Option Reason) (w : World), allZero probe →
      w.state = .opened →
      (closeM probe r w).state = .closed ∧
      (closeM probe r w).events =
        w.events ++ [(RState.closing, r), (RState.closed, r)]) ∧
    (∀ (probe : Durs) (w : World), allZero probe → w.state = .closed →
      (openM probe w).state = .opened ∧
      (openM probe w).events =
        w.events ++ [(RState.opening, (none : Option Reason)),
                     (RState.opened, (none : Option Reason))]) ∧
    (∀ (isAnim nameNone : Bool) (d dl : List ℚ) (c : List Int),
      ¬ (isAnim = true ∧ nameNone = true) →
      dl.length = d.length → c.length = d.length →
      getAnimationDuration isAnim nameNone (d.map some) (dl.map some) (c.map some) =
        specMaxDuration (specDurations d dl c)) := by
  refine ⟨?_, ?_, ?_, ?_⟩
  · intro k probe w hz
    exact ⟨sync_zero_listeners k probe w hz, sync_zero_afterCount k probe w hz⟩
  · intro probe r w hz hw
    have h : ¬ (w.state = .opening ∨ w.state = .closing ∨ w.state = .closed) := by
      rw [hw]; intro hc; rcases hc with h | h | h <;> cases h
    constructor
    · rw [closeM_state probe r w h]; simp [hz]
    · rw [closeM_events probe r w h]; simp [hz]
  · intro probe w hz hw
    have h : ¬ (w.state = .opening ∨ w.state = .closing) := by
      rw [hw]; intro hc; rcases hc with h | h <;> cases h
    constructor
    · rw [openM_state probe w h]; simp [hz]
    · rw [openM_events probe w h]; simp [hz]
  · intro isAnim nameNone d dl c hnn h1 h2
    unfold getAnimationDuration
    rw [if_neg hnn]
    exact animLoop_spec d dl c none h1 h2

/-- C4 witness: the short-circuit and the duration formula evaluated at
concrete inputs. -/
theorem c4_zero_duration_short_circuit_witness :
    (syncWithAnimation .toOpened zeroProbe sampleClosed).listeners = false ∧
    (closeM zeroProbe none sampleOpened).state = .closed ∧
    (openM zeroProbe sampleClosed).state = .opened ∧
    getAnimationDuration false false ([2].map some) ([1].map some) ([3].map some) =
      specMaxDuration (specDurations [2] [1] [3]) :=
  ⟨(c4_zero_duration_short_circuit.1 .toOpened zeroProbe sampleClosed (by decide)).1,
   (c4_zero_duration_short_circuit.2.1 zeroProbe none sampleOpened (by decide) rfl).1,
   (c4_zero_duration_short_circuit.2.2.1 zeroProbe sampleClosed (by decide) rfl).1,
   c4_zero_duration_short_circuit.2.2.2 false false [2] [1] [3] (by decide) rfl rfl⟩

/-- C5 counterexample: when every probe returns 0, the code removes the
handlers and runs the after-action synchronously, before any signal can be
delivered; a subsequent qualifying start signal is then ignored — not
counted (the counter stays 0, the delivery is the identity) — and the
after-action did not wait for the animation's end signal (it had already run,
the after-count is already 1).  This refutes the claim's final clause that
handler counting stays authoritative in the all-zero-probe case. -/
theorem c5_all_zero_probe_counterexample :
    allZero zeroProbe ∧
    (closeM zeroProbe none sampleOpened).afterCount = sampleOpened.afterCount + 1 ∧
    (closeM zeroProbe none sampleOpened).listeners = false ∧
    deliverSignal sigStart (closeM zeroProbe none sampleOpened) =
      closeM zeroProbe none sampleOpened ∧
    (deliverAll [sigStart] (closeM zeroProbe none sampleOpened)).counter = 0 := by
  decide

/-- C5 amended: provided at least one of the four probes is nonzero, a
surface whose animation actually starts is counted by the handler-based
counting even if its own probe was (incorrectly) 0, and the after-action
waits: as long as no qualifying end signal has arrived, the listeners stay
attached, the after-action has not run, and the counter equals exactly the
number of qualifying start signals.  (When all four probes are 0, the
handlers were already removed synchronously and subsequent signals are
ignored.) -/
theorem c5_handler_counting_authoritative (k : TransKind) (probe : Durs)
    (w : World) (sigs : List Signal)
    (hz : ¬ allZero probe)
    (hnoend : ∀ s ∈ sigs, ¬ isQualEnd s) :
    (deliverAll sigs (syncWithAnimation k probe w)).listeners = true ∧
    (deliverAll sigs (syncWithAnimation k probe w)).afterCount = w.afterCount ∧
    (deliverAll sigs (syncWithAnimation k probe w)).counter =
      (qualStartCount sigs : Int) := by
  have hl1 := sync_pos_listeners k probe w hz
  have ha1 := sync_pos_afterCount k probe w hz
  have hc1 : (syncWithAnimation k probe w).counter = 0 := by
    rw [sync_pos k probe w hz]; simp
  obtain ⟨h1, h2, h3⟩ := deliver_no_end sigs _ hl1 hnoend
  exact ⟨h1, h2.trans ha1, by rw [h3, hc1, zero_add]⟩

/-- C5 witness: with a nonzero bg probe, a single qualifying start is
counted and the barrier keeps waiting. -/
theorem c5_handler_counting_authoritative_witness :
    (deliverAll [sigStart] (syncWithAnimation .toOpened oneProbe sampleClosed)).listeners
      = true ∧
    (deliverAll [sigStart] (syncWithAnimation .toOpened oneProbe sampleClosed)).afterCount
      = sampleClosed.afterCount ∧
    (deliverAll [sigStart] (syncWithAnimation .toOpened oneProbe sampleClosed)).counter
      = (qualStartCount [sigStart] : Int) :=
  c5_handler_counting_authoritative .toOpened oneProbe sampleClosed [sigStart]
    (by decide) (by decide)

theorem inv2_step : ∀ (w : World2) (a : Act2), Inv2 w → Inv2 (step2 a w) := by
  decide

theorem inv2_run (acts : List Act2) : Inv2 (run2 acts) := by
  have haux : ∀ (l : List Act2) (w : World2), Inv2 w →
      Inv2 (l.foldl (fun w a => step2 a w) w) := by
    intro l
    induction l with
    | nil => intro w h; exact h
    | cons a rest ih => intro w h; exact ih (step2 a w) (inv2_step w a h)
  exact haux acts init2 (by decide)

/-- C3: across the two modeled instances, at no reachable point of the
transition system are both simultaneously Opened or Opening; and when
`open()` on B runs while the `current` pointer tracks A with A not Closed
and B Closed, the pre-phase (`halt(current)`, then `current = this`) leaves
A already Closed while B is still Closed — only then does the open step set
B to Opening. -/
theorem c3_singleton_coordinator :
    (∀ acts : List Act2,
      ¬ (activeSt (run2 acts).stA ∧ activeSt (run2 acts).stB)) ∧
    (∀ w : World2, w.cur = some .wa → w.stA ≠ .closed → w.stB = .closed →
      (openPre .wb w).stA = .closed ∧ (openPre .wb w).stB = .closed ∧
      (step2 .openB w).stA = .closed ∧ (step2 .openB w).stB = .opening) := by
  constructor
  · intro acts
    have hinv := inv2_run acts
    revert hinv
    generalize run2 acts = w
    revert w
    decide
  · decide

/-- C3 witness: a concrete interleaving (open A then open B) never exposes
two active instances, and the pre-phase of opening B force-closes an opened
A before B leaves Closed. -/
theorem c3_singleton_coordinator_witness :
    ¬ (activeSt (run2 [Act2.openA, Act2.openB]).stA ∧
        activeSt (run2 [Act2.openA, Act2.openB]).stB) ∧
    (openPre .wb ⟨.opened, .closed, some .wa⟩).stA = .closed ∧
    (step2 .openB ⟨.opened, .closed, some .wa⟩).stB = .opening :=
  ⟨c3_singleton_coordinator.1 [Act2.openA, Act2.openB],
   (c3_singleton_coordinator.2 ⟨.opened, .closed, some .wa⟩ rfl (by decide) rfl).1,
   (c3_singleton_coordinator.2 ⟨.opened, .closed, some .wa⟩ rfl (by decide) rfl).2.2.2⟩

/-! ### Object lemmas for the constructor settings merge -/

theorem lookupObj_objInsert (k k0 : List Char) (v : JsVal)
    (o : List (List Char × JsVal)) :
    lookupObj k (objInsert o k0 v) =
      if k0 = k then some v else lookupObj k o := by
  induction o with
  | nil => simp [objInsert, lookupObj]
  | cons p t ih =>
    obtain ⟨a, b⟩ := p
    simp only [objInsert]
    by_cases h1 : a = k0
    · subst h1
      by_cases h2 : a = k <;> simp [lookupObj, h2]
    · rw [if_neg h1]
      by_cases h2 : a = k
      · subst h2
        have hne : ¬ k0 = a := fun hc => h1 hc.symm
        simp [lookupObj, hne]
      · simp [lookupObj, h2, ih]

theorem lookupObj_none_of_absent (k : List Char) (src : List (List Char × JsVal))
    (h : lookupObj k src = none) : ∀ p ∈ src, p.1 ≠ k := by
  induction src with
  | nil => intro p hp; cases hp
  | cons q t ih =>
    intro p hp
    simp only [lookupObj] at h
    by_cases hq : q.1 = k
    · rw [if_pos hq] at h; cases h
    · rw [if_neg hq] at h
      rcases List.mem_cons.mp hp with rfl | hp2
      · exact hq
      · exact ih h p hp2

theorem lookupObj_assign_absent (src : List (List Char × JsVal)) :
    ∀ (t : List (List Char × JsVal)) (k : List Char), lookupObj k src = none →
    lookupObj k (objectAssign t src) = lookupObj k t := by
  induction src with
  | nil => intro t k _; rfl
  | cons q rest ih =>
    intro t k h
    simp only [lookupObj] at h
    by_cases hq : q.1 = k
    · rw [if_pos hq] at h; cases h
    · rw [if_neg hq] at h
      show lookupObj k (objectAssign (objInsert t q.1 q.2) rest) = lookupObj k t
      rw [ih (objInsert t q.1 q.2) k h, lookupObj_objInsert, if_neg hq]

theorem lookupObj_eq_none (k : List Char) (src : List (List Char × JsVal))
    (h : ∀ p ∈ src, p.1 ≠ k) : lookupObj k src = none := by
  induction src with
  | nil => rfl
  | cons q t ih =>
    simp only [lookupObj]
    rw [if_neg (h q (List.mem_cons_self q t))]
    exact ih (fun p hp => h p (List.mem_cons_of_mem q hp))

theorem lookupObj_assign_present (src : List (List Char × JsVal)) :
    ∀ (t : List (List Char × JsVal)) (k : List Char) (v : JsVal),
    (src.map Prod.fst).Nodup → lookupObj k src = some v →
    lookupObj k (objectAssign t src) = some v := by
  induction src with
  | nil => intro t k v _ h; cases h
  | cons q rest ih =>
    intro t k v hnd h
    simp only [lookupObj] at h
    have hnd2 : (rest.map Prod.fst).Nodup := (List.nodup_cons.mp hnd).2
    by_cases hq : q.1 = k
    · rw [if_pos hq] at h
      have hrest : lookupObj k rest = none := by
        apply lookupObj_eq_none
        intro p hp hpk
        have hm : q.1 ∈ rest.map Prod.fst := by
          rw [hq, ← hpk]
          exact List.mem_map_of_mem Prod.fst hp
        exact (List.nodup_cons.mp hnd).1 hm
      show lookupObj k (objectAssign (objInsert t q.1 q.2) rest) = some v
      rw [lookupObj_assign_absent rest (objInsert t q.1 q.2) k hrest,
        lookupObj_objInsert, if_pos hq, h]
    · rw [if_neg hq] at h
      exact ih (objInsert t q.1 q.2) k v hnd2 h

/-- C2 witness: the guards and the double-close behavior evaluated at
concrete worlds. -/
theorem c2_open_close_guards_witness :
    openM oneProbe { sampleClosed with state := RState.opening } =
      { sampleClosed with state := RState.opening } ∧
    closeM oneProbe none sampleClosed = sampleClosed ∧
    closeM oneProbe none (closeM oneProbe none sampleOpened) =
      closeM oneProbe none sampleOpened ∧
    countSt .closing (closeM oneProbe none sampleOpened).events =
      countSt .closing sampleOpened.events + 1 ∧
    (openM oneProbe sampleOpened).focusCount = sampleOpened.focusCount + 1 :=
  ⟨(c2_open_close_guards.1 oneProbe _).mpr (Or.inl rfl),
   (c2_open_close_guards.2.1 oneProbe none _).mpr (Or.inr (Or.inr rfl)),
   (c2_open_close_guards.2.2.2 oneProbe none sampleOpened rfl).1,
   (c2_open_close_guards.2.2.2 oneProbe none sampleOpened rfl).2.1,
   (c2_open_close_guards.2.2.1 oneProbe sampleOpened "foo" rfl rfl (by decide) rfl).1⟩

/-! ### Lemmas for the option-string parser -/

theorem dropWsAfterGo_id (c : Char) (l : List Char)
    (h : ∀ ch ∈ l, isJsWs ch = false) : ∀ b, dropWsAfterGo c b l = l := by
  induction l with
  | nil => intro b; rfl
  | cons x xs ih =>
    intro b
    have hx : isJsWs x = false := h x (List.mem_cons_self x xs)
    have hxs : ∀ ch ∈ xs, isJsWs ch = false :=
      fun ch hc => h ch (List.mem_cons_of_mem x hc)
    unfold dropWsAfterGo
    rw [if_neg (by simp [hx])]
    by_cases hc : x = c
    · rw [if_pos hc, ih hxs true]
    · rw [if_neg hc, ih hxs false]

theorem stripAroundChar_id (c : Char) (l : List Char)
    (h : ∀ ch ∈ l, isJsWs ch = false) : stripAroundChar c l = l := by
  unfold stripAroundChar dropWsAfter
  have hrev : ∀ ch ∈ l.reverse, isJsWs ch = false :=
    fun ch hc => h ch (List.mem_reverse.mp hc)
  rw [dropWsAfterGo_id c l.reverse hrev false, List.reverse_reverse,
    dropWsAfterGo_id c l h false]

theorem splitOnChar_not_mem (c : Char) (l : List Char) (h : c ∉ l) :
    splitOnChar c l = [l] := by
  induction l with
  | nil => rfl
  | cons x xs ih =>
    have hx : ¬ x = c := fun hc => h (by rw [hc]; exact List.mem_cons_self c xs)
    simp only [splitOnChar, ih (fun hc => h (List.mem_cons_of_mem x hc)), if_neg hx]

theorem splitOnChar_append (c : Char) (l1 l2 : List Char) (h : c ∉ l1) :
    splitOnChar c (l1 ++ c :: l2) = l1 :: splitOnChar c l2 := by
  induction l1 with
  | nil =>
    show splitOnChar c (c :: l2) = [] :: splitOnChar c l2
    simp [splitOnChar]
  | cons x xs ih =>
    have hx : ¬ x = c := fun hc => h (by rw [hc]; exact List.mem_cons_self c xs)
    show splitOnChar c (x :: (xs ++ c :: l2)) = (x :: xs) :: splitOnChar c l2
    simp only [splitOnChar,
      ih (fun hc => h (List.mem_cons_of_mem x hc)), if_neg hx]

theorem renderOptions_chars (ps : List (List Char × List Char)) :
    ∀ ch ∈ renderOptions ps,
      ch = ':' ∨ ch = ',' ∨ ∃ p ∈ ps, ch ∈ p.1 ∨ ch ∈ p.2 := by
  induction ps with
  | nil => intro ch hc; cases hc
  | cons p rest ih =>
    intro ch hc
    cases rest with
    | nil =>
      simp only [renderOptions, List.append_nil] at hc
      rcases List.mem_append.mp hc with h1 | h2
      · exact Or.inr (Or.inr ⟨p, List.mem_cons_self p [], Or.inl h1⟩)
      · rcases List.mem_cons.mp h2 with rfl | h3
        · exact Or.inl rfl
        · exact Or.inr (Or.inr ⟨p, List.mem_cons_self p [], Or.inr h3⟩)
    | cons q rest2 =>
      have hrend : renderOptions (p :: q :: rest2) =
          p.1 ++ ':' :: (p.2 ++ ',' :: renderOptions (q :: rest2)) := by
        simp [renderOptions]
      rw [hrend] at hc
      rcases List.mem_append.mp hc with h1 | h2
      · exact Or.inr (Or.inr ⟨p, List.mem_cons_self p (q :: rest2), Or.inl h1⟩)
      · rcases List.mem_cons.mp h2 with rfl | h3
        · exact Or.inl rfl
        · rcases List.mem_append.mp h3 with h4 | h5
          · exact Or.inr (Or.inr ⟨p, List.mem_cons_self p (q :: rest2), Or.inr h4⟩)
          · rcases List.mem_cons.mp h5 with rfl | h6
            · exact Or.inr (Or.inl rfl)
            · rcases ih ch h6 with h7 | h7 | ⟨p2, hp2, h8⟩
              · exact Or.inl h7
              · exact Or.inr (Or.inl h7)
              · exact Or.inr (Or.inr ⟨p2, List.mem_cons_of_mem p hp2, h8⟩)

theorem splitOnChar_render (ps : List (List Char × List Char))
    (hcm : ∀ p ∈ ps, ',' ∉ p.1 ∧ ',' ∉ p.2) (hne : ps ≠ []) :
    splitOnChar ',' (renderOptions ps) =
      ps.map (fun p => p.1 ++ ':' :: p.2) := by
  induction ps with
  | nil => cases hne rfl
  | cons p rest ih =>
    have hp := hcm p (List.mem_cons_self p rest)
    have htok : ',' ∉ p.1 ++ ':' :: p.2 := by
      intro hm
      rcases List.mem_append.mp hm with h1 | h2
      · exact hp.1 h1
      · rcases List.mem_cons.mp h2 with heq | h3
        · exact absurd heq (by decide)
        · exact hp.2 h3
    cases rest with
    | nil =>
      have hr : renderOptions [p] = p.1 ++ ':' :: p.2 := by
        simp [renderOptions]
      rw [hr, splitOnChar_not_mem ',' _ htok]
      rfl
    | cons q rest2 =>
      have hr : renderOptions (p :: q :: rest2) =
          (p.1 ++ ':' :: p.2) ++ ',' :: renderOptions (q :: rest2) := by
        simp [renderOptions]
      rw [hr, splitOnChar_append ',' _ _ htok,
        ih (fun p2 hp2 => hcm p2 (List.mem_cons_of_mem p hp2)) (by simp)]
      rfl

theorem objInsert_append (o : List (List Char × JsVal)) (k : List Char) (v : JsVal)
    (h : ∀ p ∈ o, p.1 ≠ k) : objInsert o k v = o ++ [(k, v)] := by
  induction o with
  | nil => rfl
  | cons q t ih =>
    obtain ⟨a, b⟩ := q
    show objInsert ((a, b) :: t) k v = (a, b) :: (t ++ [(k, v)])
    simp only [objInsert]
    rw [if_neg (h (a, b) (List.mem_cons_self (a, b) t)),
      ih (fun p hp => h p (List.mem_cons_of_mem (a, b) hp))]

theorem foldl_objInsert_nodup (kvs : List (List Char × JsVal)) :
    ∀ acc : List (List Char × JsVal),
    (kvs.map Prod.fst).Nodup →
    (∀ q ∈ kvs, ∀ p ∈ acc, p.1 ≠ q.1) →
    kvs.foldl (fun obj q => objInsert obj q.1 q.2) acc = acc ++ kvs := by
  induction kvs with
  | nil => intro acc _ _; simp
  | cons q rest ih =>
    intro acc hnd hdis
    show rest.foldl (fun obj q2 => objInsert obj q2.1 q2.2)
        (objInsert acc q.1 q.2) = acc ++ q :: rest
    rw [objInsert_append acc q.1 q.2
      (fun p hp => hdis q (List.mem_cons_self q rest) p hp)]
    have hnd2 : (rest.map Prod.fst).Nodup := (List.nodup_cons.mp hnd).2
    have hdis2 : ∀ q2 ∈ rest, ∀ p ∈ acc ++ [(q.1, q.2)], p.1 ≠ q2.1 := by
      intro q2 hq2 p hp
      rcases List.mem_append.mp hp with h1 | h2
      · exact hdis q2 (List.mem_cons_of_mem q hq2) p h1
      · rcases List.mem_cons.mp h2 with rfl | h3
        · intro hc
          apply (List.nodup_cons.mp hnd).1
          rw [hc]
          exact List.mem_map_of_mem Prod.fst hq2
        · cases h3
    rw [ih (acc ++ [(q.1, q.2)]) hnd2 hdis2, List.append_assoc]
    rfl

theorem tokenKV_eq (k v : List Char) (hk : ':' ∉ k) (hv : ':' ∉ v) :
    tokenKV (k ++ ':' :: v) = (k, coerceValue (some v)) := by
  unfold tokenKV
  rw [splitOnChar_append ':' k v hk, splitOnChar_not_mem ':' v hv]
  rfl

/-- C10: the constructor merges its options into the shared module-level
DEFAULTS object in place — the instance settings and the mutated defaults
are the same object (the result of `Object.assign(DEFAULTS, options)`) — so
an option supplied to a first construction is still present in the resolved
settings of a later construction whose own options do not mention it. -/
theorem c10_defaults_mutated_in_place :
    (∀ d o : List (List Char × JsVal),
      (constructSettings d o).2 = (constructSettings d o).1 ∧
      (constructSettings d o).1 = objectAssign d o) ∧
    (∀ (d o1 o2 : List (List Char × JsVal)) (k : List Char) (v : JsVal),
      lookupObj k o1 = some v → (o1.map Prod.fst).Nodup →
      lookupObj k o2 = none →
      lookupObj k (constructSettings (constructSettings d o1).2 o2).1 = some v) := by
  constructor
  · intro d o; exact ⟨rfl, rfl⟩
  · intro d o1 o2 k v h1 hnd h2
    show lookupObj k (objectAssign (objectAssign d o1) o2) = some v
    rw [lookupObj_assign_absent o2 _ k h2]
    exact lookupObj_assign_present o1 d k v hnd h1

/-- C10 witness: a modifier option given only to the first construction is
present in the second construction's resolved settings. -/
theorem c10_defaults_mutated_in_place_witness :
    lookupObj ("modifier".data)
      (constructSettings
        (constructSettings defaultsInit
          [("modifier".data, .js ("my-class".data))]).2 []).1 =
      some (.js ("my-class".data)) :=
  c10_defaults_mutated_in_place.2 defaultsInit
    [("modifier".data, .js ("my-class".data))] [] ("modifier".data)
    (.js ("my-class".data)) (by decide) (by decide) rfl

/-- C9: `parseOptions` maps each comma-separated `key:value` token (with
whitespace around the delimiters removed) to the pair of the key and the
coerced value, where the coercion yields the boolean exactly on the literal
words `true`/`false`, otherwise the number when the string converts to one,
otherwise the original string; and the three concrete examples from the
spec evaluate as claimed. -/
theorem c9_parse_options_coercion :
    (∀ ps : List (List Char × List Char), ps ≠ [] →
      (∀ p ∈ ps, ∀ ch ∈ p.1, ch ≠ ':' ∧ ch ≠ ',' ∧ isJsWs ch = false) →
      (∀ p ∈ ps, ∀ ch ∈ p.2, ch ≠ ':' ∧ ch ≠ ',' ∧ isJsWs ch = false) →
      (ps.map Prod.fst).Nodup →
      parseOptions (renderOptions ps) =
        ps.map (fun p => (p.1, coerceValue (some p.2)))) ∧
    (∀ v : List Char,
      (v = ("true".data) → coerceValue (some v) = .jb true) ∧
      (v = ("false".data) → coerceValue (some v) = .jb false) ∧
      (∀ n : JsNum, v ≠ ("true".data) → v ≠ ("false".data) →
        jsToNumber v = some n → coerceValue (some v) = .jn n) ∧
      (v ≠ ("true".data) → v ≠ ("false".data) → jsToNumber v = none →
        coerceValue (some v) = .js v)) ∧
    parseOptions ("hashTracking:false,modifier:my-class".data) =
      [("hashTracking".data, .jb false), ("modifier".data, .js ("my-class".data))] ∧
    parseOptions ("appendTo:1".data) = [("appendTo".data, .jn (.val 1))] ∧
    parseOptions ("label:truefoo".data) = [("label".data, .js ("truefoo".data))] := by
  refine ⟨?_, ?_, by decide, by decide, by decide⟩
  · intro ps hne hch1 hch2 hnd
    have hws : ∀ ch ∈ renderOptions ps, isJsWs ch = false := by
      intro ch hc
      rcases renderOptions_chars ps ch hc with rfl | rfl | ⟨p, hp, hin⟩
      · decide
      · decide
      · rcases hin with hin | hin
        · exact (hch1 p hp ch hin).2.2
        · exact (hch2 p hp ch hin).2.2
    have hcm : ∀ p ∈ ps, ',' ∉ p.1 ∧ ',' ∉ p.2 := by
      intro p hp
      constructor <;> intro hm
      · exact (hch1 p hp ',' hm).2.1 rfl
      · exact (hch2 p hp ',' hm).2.1 rfl
    show (splitOnChar ','
        (stripAroundChar ',' (stripAroundChar ':' (renderOptions ps)))).foldl
        (fun obj tok => objInsert obj (tokenKV tok).1 (tokenKV tok).2) [] =
      ps.map (fun p => (p.1, coerceValue (some p.2)))
    rw [stripAroundChar_id ':' _ hws, stripAroundChar_id ',' _ hws,
      splitOnChar_render ps hcm hne, List.foldl_map]
    have hext : ps.foldl
        (fun obj p =>
          objInsert obj (tokenKV (p.1 ++ ':' :: p.2)).1 (tokenKV (p.1 ++ ':' :: p.2)).2)
        [] =
        ps.foldl (fun obj p => objInsert obj p.1 (coerceValue (some p.2))) [] := by
      apply List.foldl_ext
      intro obj p hp
      have hk : ':' ∉ p.1 := fun hm => (hch1 p hp ':' hm).1 rfl
      have hv : ':' ∉ p.2 := fun hm => (hch2 p hp ':' hm).1 rfl
      rw [tokenKV_eq p.1 p.2 hk hv]
    rw [hext]
    have hmapfold :
        ps.foldl (fun obj p => objInsert obj p.1 (coerceValue (some p.2))) [] =
          (ps.map (fun p => (p.1, coerceValue (some p.2)))).foldl
            (fun obj q => objInsert obj q.1 q.2) [] := by
      rw [List.foldl_map]
    rw [hmapfold]
    have hnd2 : ((ps.map (fun p => (p.1, coerceValue (some p.2)))).map Prod.fst).Nodup := by
      rw [List.map_map]
      exact hnd
    rw [foldl_objInsert_nodup _ [] hnd2 (fun q _ p hp => absurd hp (List.not_mem_nil p))]
    rfl
  · intro v
    refine ⟨?_, ?_, ?_, ?_⟩
    · intro h; simp [coerceValue, h]
    · intro h
      have hne : ¬ v = ("true".data) := by
        rw [h]; decide
      simp [coerceValue, h, hne]
    · intro n h1 h2 h3
      simp [coerceValue, h1, h2, h3]
    · intro h1 h2 h3
      simp [coerceValue, h1, h2, h3]

/-- C9 witness: the general token-mapping statement applied to a concrete
well-formed pair list, and the numeric coercion applied to a concrete
numeric string. -/
theorem c9_parse_options_coercion_witness :
    parseOptions (renderOptions
        [("hashTracking".data, "false".data), ("modifier".data, "my-class".data)]) =
      [("hashTracking".data, coerceValue (some ("false".data))),
       ("modifier".data, coerceValue (some ("my-class".data)))] ∧
    coerceValue (some ("42".data)) = .jn (.val 42) :=
  ⟨c9_parse_options_coercion.1
      [("hashTracking".data, "false".data), ("modifier".data, "my-class".data)]
      (by decide) (by decide) (by decide) (by decide),
   (c9_parse_options_coercion.2.1 ("42".data)).2.2.1 (.val 42)
      (by decide) (by decide) (by decide)⟩

end Remodal
